import Mathlib

set_option maxHeartbeats 1000000

/-!
Verification development for the transfer-run lifecycle coordinator of
bq_dts/base_connector.py.

The embedding models the coordinator (`ManagedTransferRun`), its log handler
(`TransferRunLogger`), the pub/sub trigger callback
(`BaseConnector.pubsub_callback`) and the table-context conversion
(`TableContext.to_ImportedDataInfo`).  Stateful Python code is embedded as
explicit state passing: a `ManagedTransferRun` value carries the message
buffer, the two timer flags, the abstract run state and a trace of the
externally observable actions (timer operations, tracking-service calls,
process-level log lines, message ack and nack).  Python exceptions are values
of `PyExc`; fallible code returns `Option`.
-/

/-- Severities of rest_client.MessageSeverity used by the handler. -/
inductive Severity where
  | INFO
  | WARNING
  | ERROR
  deriving DecidableEq, Repr

/-- Transfer-run states of rest_client.TransferState that the coordinator
reports (RUNNING, FAILED) plus the spec-level SUCCEEDED terminal state. -/
inductive TransferState where
  | RUNNING
  | SUCCEEDED
  | FAILED
  deriving DecidableEq, Repr

/-- Python exceptions distinguished by base_connector.py:
googleapiclient errors.HttpError (with its HTTP status and body),
AssertionError, TimeoutError, and any other exception. -/
inductive PyExc where
  | httpError (status : Nat) (content : String)
  | assertionError (message : String)
  | timeoutError
  | otherError (message : String)
  deriving DecidableEq, Repr

/-- A buffered transfer message, as built by TransferRunLogger.emit.
Timestamps are modeled as natural numbers; rest_client.to_zulu_time is
modeled as the identity on those instants. -/
structure TransferMessage where
  message_time : Nat
  severity : Severity
  message_text : String
  deriving DecidableEq, Repr

/-- A logging record as seen by TransferRunLogger.emit: the level name, the
creation instant, and the already formatted text. -/
structure LogRecord where
  levelname : String
  created : Nat
  text : String
  deriving DecidableEq, Repr

def infoLevelName : String := "INFO"

def warningLevelName : String := "WARNING"

def errorLevelName : String := "ERROR"

/-- TransferRunLogger.LEVEL_TO_SEVERITY_MAP: level names outside the map
yield no severity and the record is dropped by emit. -/
def LEVEL_TO_SEVERITY_MAP (levelname : String) : Option Severity :=
  if levelname = infoLevelName then some Severity.INFO
  else if levelname = warningLevelName then some Severity.WARNING
  else if levelname = errorLevelName then some Severity.ERROR
  else none

/-- TransferRunLogger: the logging.Handler subclass buffering
TransferMessages in its msgs list. -/
structure TransferRunLogger where
  msgs : List TransferMessage
  deriving DecidableEq, Repr

/-- TransferRunLogger.emit: records with an unmapped level are dropped,
others are appended to the buffer with their severity and time. -/
def TransferRunLogger.emit (h : TransferRunLogger) (r : LogRecord) : TransferRunLogger :=
  match LEVEL_TO_SEVERITY_MAP r.levelname with
  | none => h
  | some sev => { msgs := h.msgs ++ [⟨r.created, sev, r.text⟩] }

/-- TransferRunLogger.flush: self.msgs = list(). -/
def TransferRunLogger.flush (_h : TransferRunLogger) : TransferRunLogger :=
  { msgs := [] }

/-- The two timers owned by a ManagedTransferRun:
self._timer_timeout and self._timer_update_bq_dts. -/
inductive TimerKind where
  | timeoutTimer
  | updateTimer
  deriving DecidableEq, Repr

/-- Externally observable actions of one coordinator scope, in order:
timer operations, tracking-service (BQ DTS client) calls, process-level
log lines of self.logger, and the pub/sub ack and nack.  The three marker
events heartbeatTick, timeoutFired and exitBegin are emitted only by the
scheduler model of section C6 to timestamp when a timer callback fires and
when scope exit begins. -/
inductive Event where
  | timerStart (t : TimerKind)
  | timerStop (t : TimerKind)
  | dtsPatchState (st : TransferState)
  | dtsLogMessages (batch : List TransferMessage)
  | dtsFinishRun
  | localLog (sev : Severity) (text : String)
  | msgAck
  | msgNack
  | heartbeatTick
  | timeoutFired
  | exitBegin
  deriving DecidableEq, Repr

/-- Which events are calls on the tracking-service (BQ DTS) client. -/
def Event.isDtsCall : Event → Bool
  | Event.dtsPatchState _ => true
  | Event.dtsLogMessages _ => true
  | Event.dtsFinishRun => true
  | _ => false

def dtsCalls (tr : List Event) : List Event :=
  tr.filter Event.isDtsCall

/-- State of one ManagedTransferRun scope.  `hasDts` is whether
self.dts_client is configured; `handler` is self._log_handler;
the two Running flags are the started state of the two RepeatedTimers;
`lifecycle` is the abstract RunState of the spec (RUNNING at scope start,
terminal at scope exit); `now` is the clock used for record.created;
`trace` is the list of observable actions so far. -/
structure ManagedTransferRun where
  name : String
  hasDts : Bool
  updateInterval : Nat
  timeoutInterval : Nat
  handler : TransferRunLogger
  timeoutRunning : Bool
  updateRunning : Bool
  lifecycle : TransferState
  now : Nat
  trace : List Event
  deriving DecidableEq, Repr

def emitEvent (s : ManagedTransferRun) (e : Event) : ManagedTransferRun :=
  { s with trace := s.trace ++ [e] }

/-- A call self.run_logger.log(level, text): the handler receives the
record (formatted text, current instant) and buffers it per its level. -/
def runLoggerLog (s : ManagedTransferRun) (levelname text : String) : ManagedTransferRun :=
  { s with handler := s.handler.emit ⟨levelname, s.now, text⟩ }

def runLoggerInfo (s : ManagedTransferRun) (text : String) : ManagedTransferRun :=
  runLoggerLog s infoLevelName text

def runLoggerError (s : ManagedTransferRun) (text : String) : ManagedTransferRun :=
  runLoggerLog s errorLevelName text

/-- A call self.logger.info / self.logger.error: process-level logging,
recorded in the trace and never buffered for the tracking service. -/
def localLogInfo (s : ManagedTransferRun) (text : String) : ManagedTransferRun :=
  emitEvent s (Event.localLog Severity.INFO text)

def localLogError (s : ManagedTransferRun) (text : String) : ManagedTransferRun :=
  emitEvent s (Event.localLog Severity.ERROR text)

def startTimer (s : ManagedTransferRun) (t : TimerKind) : ManagedTransferRun :=
  let s1 := emitEvent s (Event.timerStart t)
  match t with
  | TimerKind.timeoutTimer => { s1 with timeoutRunning := true }
  | TimerKind.updateTimer => { s1 with updateRunning := true }

def stopTimer (s : ManagedTransferRun) (t : TimerKind) : ManagedTransferRun :=
  let s1 := emitEvent s (Event.timerStop t)
  match t with
  | TimerKind.timeoutTimer => { s1 with timeoutRunning := false }
  | TimerKind.updateTimer => { s1 with updateRunning := false }

/-- The literal message of line 180 of the source: the string is not an
f-string there, so the braces are sent verbatim; they are escaped here. -/
def processingText : String :=
  "Processing... next update within \x7bself._timer_update_bq_dts.interval\x7d second(s)"

/-- The synthetic informational entry a silent heartbeat tick buffers. -/
def processingMsg (s : ManagedTransferRun) : TransferMessage :=
  ⟨s.now, Severity.INFO, processingText⟩

/-- ManagedTransferRun._update_bq_dts, the heartbeat-timer callback:
if the buffer is empty, first log a synthetic processing entry through the
run logger; then, if a DTS client is configured and the buffer is
non-empty, send the buffered messages as one transfer_run_log_messages
call; finally flush the handler. -/
def ManagedTransferRun.update_bq_dts (s : ManagedTransferRun) : ManagedTransferRun :=
  let s1 := if s.handler.msgs.isEmpty then runLoggerInfo s processingText else s
  let s2 := if s1.hasDts && !s1.handler.msgs.isEmpty then
      emitEvent s1 (Event.dtsLogMessages s1.handler.msgs)
    else s1
  { s2 with handler := s2.handler.flush }

def timeoutLogText (interval : Nat) : String :=
  "Transfer Run timed out after " ++ toString interval ++ " second(s)!"

/-- ManagedTransferRun._timeout, the timeout-timer callback: log an error
naming the configured interval and raise TimeoutError so that the scope
exit cleanup runs. -/
def ManagedTransferRun.timeout_cb (s : ManagedTransferRun) : ManagedTransferRun × PyExc :=
  (runLoggerError s (timeoutLogText s.timeoutInterval), PyExc.timeoutError)

def isHttpError : Option PyExc → Bool
  | some (PyExc.httpError _ _) => true
  | _ => false

def isAssertionError : Option PyExc → Bool
  | some (PyExc.assertionError _) => true
  | _ => false

def excText : PyExc → String
  | PyExc.httpError st c => "HttpError " ++ toString st ++ " " ++ c
  | PyExc.assertionError m => "AssertionError " ++ m
  | PyExc.timeoutError => "TimeoutError"
  | PyExc.otherError m => m

/-- traceback.format_exception joined to one string, modeled abstractly. -/
def formatTracebackText (e : PyExc) : String :=
  "Traceback: " ++ excText e

def finishingFailedText (name : String) : String :=
  "[" ++ name ++ "] BQ DTS ; Finishing Run - FAILED"

def finishingSuccessText (name : String) : String :=
  "[" ++ name ++ "] BQ DTS ; Finishing Run - SUCCESS"

def finishedText (name : String) : String :=
  "[" ++ name ++ "] [FINISHED]"

def startingText (name : String) : String :=
  "[" ++ name ++ "] [STARTING]"

def startingRunText (name : String) : String :=
  "[" ++ name ++ "] BQ DTS ; Starting Run"

/-- ManagedTransferRun.__exit__ given the exception (if any) that reached
scope exit.  Returns the state after exit and the boolean __exit__ result
(true suppresses the exception).  Steps mirror the source: stop the timeout
timer then the update timer; short-circuit, suppressing nothing, on an
HttpError; log the exception to the run logger; if a DTS client is
configured, run the update callback immediately, patch state FAILED when an
exception occurred, and finish the run; finally suppress AssertionError. -/
def ManagedTransferRun.exitRun (s0 : ManagedTransferRun) (exc : Option PyExc) :
    ManagedTransferRun × Bool :=
  let s := stopTimer (stopTimer s0 TimerKind.timeoutTimer) TimerKind.updateTimer
  let s := { s with lifecycle := if exc.isSome then TransferState.FAILED else TransferState.SUCCEEDED }
  if isHttpError exc then (s, false)
  else
    let s := match exc with
      | some e => runLoggerError s (formatTracebackText e)
      | none => s
    let s := if s.hasDts then
        let s1 := ManagedTransferRun.update_bq_dts s
        let s2 := match exc with
          | some _ =>
            localLogInfo (emitEvent s1 (Event.dtsPatchState TransferState.FAILED))
              (finishingFailedText s1.name)
          | none => localLogInfo s1 (finishingSuccessText s1.name)
        emitEvent s2 Event.dtsFinishRun
      else s
    let s := localLogInfo s (finishedText s.name)
    (s, isAssertionError exc)

/-- Result of ManagedTransferRun.__enter__: either the context object is
returned, or an exception propagates out of scope entry. -/
inductive EnterResult where
  | ok (s : ManagedTransferRun)
  | raised (s : ManagedTransferRun) (e : PyExc)
  deriving DecidableEq, Repr

def EnterResult.state : EnterResult → ManagedTransferRun
  | EnterResult.ok s => s
  | EnterResult.raised s _ => s

def EnterResult.raisedExc : EnterResult → Option PyExc
  | EnterResult.ok _ => none
  | EnterResult.raised _ e => some e

/-- ManagedTransferRun.__enter__.  `patchFail` is the outcome of the
transfer_run_patch_state RUNNING call on the DTS client: none when the call
succeeds, or the exception it raises.  On failure the source calls
__exit__ with that exception and re-raises unless __exit__ suppressed it.
The attempted RUNNING patch is recorded in the trace in either case. -/
def ManagedTransferRun.enterRun (s0 : ManagedTransferRun) (patchFail : Option PyExc) :
    EnterResult :=
  let s := localLogInfo s0 (startingText s0.name)
  let s := startTimer (startTimer s TimerKind.updateTimer) TimerKind.timeoutTimer
  if !s.hasDts then EnterResult.ok s
  else
    let s := localLogInfo s (startingRunText s.name)
    let s := emitEvent s (Event.dtsPatchState TransferState.RUNNING)
    match patchFail with
    | none => EnterResult.ok s
    | some e =>
      let r := ManagedTransferRun.exitRun s (some e)
      if r.2 then EnterResult.ok r.1 else EnterResult.raised r.1 e

/-- The state of a freshly constructed ManagedTransferRun: empty buffer,
timers not yet started, abstract run state RUNNING. -/
def initialState (name : String) (hasDts : Bool) (u t : Nat) : ManagedTransferRun :=
  { name := name, hasDts := hasDts, updateInterval := u, timeoutInterval := t,
    handler := { msgs := [] }, timeoutRunning := false, updateRunning := false,
    lifecycle := TransferState.RUNNING, now := 0, trace := [] }

/-- The run body logging through run_ctx.run_logger: each record is handed
to the handler; the trace and all other fields are untouched. -/
def applyLogs (s : ManagedTransferRun) (logs : List LogRecord) : ManagedTransferRun :=
  logs.foldl (fun acc r => { acc with handler := acc.handler.emit r }) s

/-- Outcome of one with-statement around a ManagedTransferRun: the scope
either completes (possibly having suppressed the body exception) or an
exception escapes it. -/
inductive ScopeOutcome where
  | completed (s : ManagedTransferRun)
  | escaped (s : ManagedTransferRun) (e : PyExc)
  deriving DecidableEq, Repr

def ScopeOutcome.state : ScopeOutcome → ManagedTransferRun
  | ScopeOutcome.completed s => s
  | ScopeOutcome.escaped s _ => s

/-- One with-statement: enter, then the body (its run-logger records and
its exception if any), then exit; the body exception escapes unless
__exit__ suppressed it.  When __enter__ itself raises, the body never
runs. -/
def runScope (s0 : ManagedTransferRun) (patchFail : Option PyExc)
    (bodyLogs : List LogRecord) (bodyExc : Option PyExc) : ScopeOutcome :=
  match ManagedTransferRun.enterRun s0 patchFail with
  | EnterResult.raised s e => ScopeOutcome.escaped s e
  | EnterResult.ok s =>
    let s := applyLogs s bodyLogs
    let r := ManagedTransferRun.exitRun s bodyExc
    match bodyExc with
    | none => ScopeOutcome.completed r.1
    | some e => if r.2 then ScopeOutcome.completed r.1 else ScopeOutcome.escaped r.1 e

/-- Result of BaseConnector.pubsub_callback: the final state (whose trace
ends with the ack or nack decision when one is made) and the exception
propagating out of the callback, if any. -/
structure CallbackResult where
  final : ManagedTransferRun
  propagated : Option PyExc
  deriving DecidableEq, Repr

def unrecoverableText (status : Nat) : String :=
  "Unrecoverable BigQuery Data Transfer Service API error - " ++ toString status

/-- BaseConnector.pubsub_callback, from the with-statement on: an HttpError
escaping the scope is acked (after two error logs) when its status is 400
or 404 and nacked otherwise; an escaping AssertionError is acked; a scope
that completes is acked; any other escaping exception propagates out of the
callback with neither ack nor nack. -/
def pubsubCallback (s0 : ManagedTransferRun) (patchFail : Option PyExc)
    (bodyLogs : List LogRecord) (bodyExc : Option PyExc) : CallbackResult :=
  match runScope s0 patchFail bodyLogs bodyExc with
  | ScopeOutcome.completed s => ⟨emitEvent s Event.msgAck, none⟩
  | ScopeOutcome.escaped s e =>
    match e with
    | PyExc.httpError status content =>
      if status = 400 ∨ status = 404 then
        let s := localLogError s (unrecoverableText status)
        let s := localLogError s content
        ⟨emitEvent s Event.msgAck, none⟩
      else ⟨emitEvent s Event.msgNack, none⟩
    | PyExc.assertionError _ => ⟨emitEvent s Event.msgAck, none⟩
    | e => ⟨s, some e⟩

/-!
Interleaving model for the temporal claim.  helpers.RepeatedTimer itself is
repository code not present under src/, so its behavior is modeled from the
spec: a started timer may fire at any point while the scope is live; firing
is impossible once the timer is stopped; the timeout callback raising
TimeoutError cancels the scope, so control reaches scope exit exactly once
carrying that error and no further callback fires afterwards.  A schedule is
an arbitrary list of attempted actions; an attempt whose timer is stopped,
or that arrives after the scope exited, has no effect.
-/

/-- Modelled from the spec: the events that can be attempted, in any order,
while a coordinator scope is live - a heartbeat-timer firing, a
timeout-timer firing, or the run body finishing with an optional error. -/
inductive SchedAction where
  | heartbeat
  | timeoutFire
  | bodyComplete (r : Option PyExc)
  deriving DecidableEq, Repr

/-- Modelled from the spec: a live coordinator scope together with whether
its exit has already run and, once it has, the exception it carried. -/
structure ScopeMachine where
  mtr : ManagedTransferRun
  exited : Bool
  exitExc : Option (Option PyExc)
  deriving DecidableEq, Repr

/-- Modelled from the spec: one attempted action against a live scope.
A timer only fires while its Running flag is set and the scope has not
exited; the timeout firing runs the _timeout callback and then scope exit
with the TimeoutError it raised; the body completing runs scope exit with
the body's outcome.  The marker events timestamp when a callback fired and
when exit began. -/
def machineStep (m : ScopeMachine) (a : SchedAction) : ScopeMachine :=
  if m.exited then m else
  match a with
  | SchedAction.heartbeat =>
    if m.mtr.updateRunning then
      { m with mtr := ManagedTransferRun.update_bq_dts (emitEvent m.mtr Event.heartbeatTick) }
    else m
  | SchedAction.timeoutFire =>
    if m.mtr.timeoutRunning then
      let p := ManagedTransferRun.timeout_cb (emitEvent m.mtr Event.timeoutFired)
      let s := emitEvent p.1 Event.exitBegin
      { mtr := (ManagedTransferRun.exitRun s (some p.2)).1,
        exited := true, exitExc := some (some p.2) }
    else m
  | SchedAction.bodyComplete r =>
    let s := emitEvent m.mtr Event.exitBegin
    { mtr := (ManagedTransferRun.exitRun s r).1, exited := true, exitExc := some r }

def machineRun (m : ScopeMachine) (acts : List SchedAction) : ScopeMachine :=
  acts.foldl machineStep m

/-- A scope just entered (DTS client configured, RUNNING reported, both
timers started), ready for the scheduler. -/
def machineInit (name : String) (u t : Nat) : ScopeMachine :=
  { mtr := (ManagedTransferRun.enterRun (initialState name true u t) none).state,
    exited := false, exitExc := none }

def Event.isTick : Event → Bool
  | Event.heartbeatTick => true
  | Event.timeoutFired => true
  | _ => false

/-!
Heap model for TableContext.to_ImportedDataInfo.  The source mutates, in
place, a structure of nested Python dicts and lists obtained by
copy.deepcopy; to make the frame effect on the original meaningful, the
embedding gives dicts and lists explicit addresses in a heap.  A heap cell
holds either an immutable atom or the addresses of a list's items or of a
dict's values.  Updating address a prepends a cell for a, shadowing the old
one; allocation uses the next free address.
-/

/-- A Python object in the heap: an atom, a list of item addresses, or a
dict of key/value-address pairs. -/
inductive PyObj where
  | ostr (s : String)
  | oint (n : Int)
  | onone
  | olist (items : List Nat)
  | odict (entries : List (String × Nat))
  deriving DecidableEq, Repr

structure Heap where
  cells : List (Nat × PyObj)
  next : Nat
  deriving DecidableEq, Repr

/-- Address lookup: the first (most recent) cell for the address wins. -/
def hfind : List (Nat × PyObj) → Nat → Option PyObj
  | [], _ => none
  | p :: rest, a => if p.1 = a then some p.2 else hfind rest a

/-- Every cell's address lies below the allocation frontier. -/
def Heap.wb (h : Heap) : Prop :=
  ∀ p ∈ h.cells, p.1 < h.next

instance (h : Heap) : Decidable h.wb := by
  unfold Heap.wb
  infer_instance

def hset (h : Heap) (a : Nat) (o : PyObj) : Heap :=
  ⟨(a, o) :: h.cells, h.next⟩

def halloc (h : Heap) (o : PyObj) : Heap × Nat :=
  (⟨(h.next, o) :: h.cells, h.next + 1⟩, h.next)

def getDict (h : Heap) (a : Nat) : Option (List (String × Nat)) :=
  match hfind h.cells a with
  | some (PyObj.odict es) => some es
  | _ => none

def getList (h : Heap) (a : Nat) : Option (List Nat) :=
  match hfind h.cells a with
  | some (PyObj.olist items) => some items
  | _ => none

/-- Python dict lookup on the entry list: first matching key. -/
def lookupKey (es : List (String × Nat)) (k : String) : Option Nat :=
  match es with
  | [] => none
  | p :: rest => if p.1 = k then some p.2 else lookupKey rest k

/-- Python dict.pop(k, None) on the entry list: drop entries with key k. -/
def removeKey (es : List (String × Nat)) (k : String) : List (String × Nat) :=
  es.filter (fun p => p.1 ≠ k)

/-- Python dict item assignment on the entry list: replace in place if the
key is present, append otherwise. -/
def setKey (es : List (String × Nat)) (k : String) (v : Nat) : List (String × Nat) :=
  if es.any (fun p => p.1 = k) then
    es.map (fun p => if p.1 = k then (k, v) else p)
  else es ++ [(k, v)]

mutual

/-- copy.deepcopy, fueled so the recursion through lists and dicts is
structural on the fuel; cyclic or too-deep inputs yield none.  Children are
copied before their parent, so every cell points only at lower, freshly
allocated addresses.  (Python preserves aliasing inside the copied value
via its memo dict; the configs copied here are trees, where both semantics
agree.) -/
def deepcopy (h : Heap) (fuel : Nat) (a : Nat) : Option (Heap × Nat) :=
  match fuel with
  | 0 => none
  | f + 1 =>
    match hfind h.cells a with
    | some (PyObj.ostr s) => some (halloc h (PyObj.ostr s))
    | some (PyObj.oint n) => some (halloc h (PyObj.oint n))
    | some PyObj.onone => some (halloc h PyObj.onone)
    | some (PyObj.olist items) =>
      match deepcopyL h f items with
      | some (h1, cs) => some (halloc h1 (PyObj.olist cs))
      | none => none
    | some (PyObj.odict es) =>
      match deepcopyD h f es with
      | some (h1, ps) => some (halloc h1 (PyObj.odict ps))
      | none => none
    | none => none

def deepcopyL (h : Heap) (fuel : Nat) (as : List Nat) : Option (Heap × List Nat) :=
  match fuel with
  | 0 => none
  | f + 1 =>
    match as with
    | [] => some (h, [])
    | a :: rest =>
      match deepcopy h f a with
      | some (h1, c) =>
        match deepcopyL h1 f rest with
        | some (h2, cs) => some (h2, c :: cs)
        | none => none
      | none => none

def deepcopyD (h : Heap) (fuel : Nat) (es : List (String × Nat)) :
    Option (Heap × List (String × Nat)) :=
  match fuel with
  | 0 => none
  | f + 1 =>
    match es with
    | [] => some (h, [])
    | p :: rest =>
      match deepcopy h f p.2 with
      | some (h1, c) =>
        match deepcopyD h1 f rest with
        | some (h2, ps) => some (h2, (p.1, c) :: ps)
        | none => none
      | none => none

end

/-- TableContext: the three attributes, each a reference into the heap. -/
structure TableContext where
  imported_data_info : Nat
  table_name : Nat
  uris : Nat
  deriving DecidableEq, Repr

def destTemplateKey : String := "destination_table_id_template"

def destIdKey : String := "destination_table_id"

def tableDefsKey : String := "table_defs"

def sourceUrisKey : String := "source_uris"

/-- TableContext.to_ImportedDataInfo: deep-copy imported_data_info, pop the
destination_table_id_template key, assign destination_table_id to the
table_name reference, and assign source_uris of the first table definition
to the uris reference.  Returns the heap after the mutations and the
address of the copy; none models the exceptions Python would raise when a
step does not apply (missing key, empty table_defs list, wrong type). -/
def TableContext.to_ImportedDataInfo (h : Heap) (fuel : Nat) (ctx : TableContext) :
    Option (Heap × Nat) :=
  match deepcopy h fuel ctx.imported_data_info with
  | none => none
  | some (h1, c) =>
    match getDict h1 c with
    | none => none
    | some es =>
      let h2 := hset h1 c (PyObj.odict (removeKey es destTemplateKey))
      match getDict h2 c with
      | none => none
      | some es2 =>
        let h3 := hset h2 c (PyObj.odict (setKey es2 destIdKey ctx.table_name))
        match getDict h3 c with
        | none => none
        | some es3 =>
          match lookupKey es3 tableDefsKey with
          | none => none
          | some tdAddr =>
            match getList h3 tdAddr with
            | none => none
            | some items =>
              match items with
              | [] => none
              | firstAddr :: _ =>
                match getDict h3 firstAddr with
                | none => none
                | some fes =>
                  some (hset h3 firstAddr
                    (PyObj.odict (setKey fes sourceUrisKey ctx.uris)), c)

/-- The addresses a heap cell points at: a list's items or a dict's
values. -/
def cellAddrs : PyObj → List Nat
  | PyObj.olist items => items
  | PyObj.odict es => es.map Prod.snd
  | _ => []

/-- The cells allocated by a deep copy that started at frontier n and ended
at frontier m: every cell lives in [n, m) and points only below itself and
at or above n (children are allocated before their parents). -/
def freshCells (n m : Nat) (newc : List (Nat × PyObj)) : Prop :=
  ∀ p ∈ newc, n ≤ p.1 ∧ p.1 < m ∧ ∀ b ∈ cellAddrs p.2, n ≤ b ∧ b < p.1

def formatKey : String := "format"

def jsonText : String := "JSON"

def tplText : String := "tpl"

def nameText : String := "mytable"

def uriText : String := "gs-uri-1"

/-- A concrete heap holding an ImportedDataInfo config dict (address 4), a
table-name string (address 5) and a uris list (address 7), for the
witness. -/
def sampleHeap : Heap :=
  ⟨[(4, PyObj.odict [(destTemplateKey, 0), (tableDefsKey, 3)]),
    (3, PyObj.olist [2]),
    (2, PyObj.odict [(formatKey, 1)]),
    (1, PyObj.ostr jsonText),
    (0, PyObj.ostr tplText),
    (5, PyObj.ostr nameText),
    (7, PyObj.olist [6]),
    (6, PyObj.ostr uriText)], 8⟩

def sampleCtx : TableContext := ⟨4, 5, 7⟩

/-- The heap produced by to_ImportedDataInfo on the sample heap: the copy
(addresses 8-12, with the shadowing updates of cells 12 and 10) sits on
top of the untouched original cells. -/
def sampleHeapResult : Heap :=
  ⟨[(10, PyObj.odict [(formatKey, 9), (sourceUrisKey, 7)]),
    (12, PyObj.odict [(tableDefsKey, 11), (destIdKey, 5)]),
    (12, PyObj.odict [(tableDefsKey, 11)]),
    (12, PyObj.odict [(destTemplateKey, 8), (tableDefsKey, 11)]),
    (11, PyObj.olist [10]),
    (10, PyObj.odict [(formatKey, 9)]),
    (9, PyObj.ostr jsonText),
    (8, PyObj.ostr tplText),
    (4, PyObj.odict [(destTemplateKey, 0), (tableDefsKey, 3)]),
    (3, PyObj.olist [2]),
    (2, PyObj.odict [(formatKey, 1)]),
    (1, PyObj.ostr jsonText),
    (0, PyObj.ostr tplText),
    (5, PyObj.ostr nameText),
    (7, PyObj.olist [6]),
    (6, PyObj.ostr uriText)], 13⟩

/-- Sample run name used by the concrete witnesses. -/
def sampleName : String := "run1"

def sampleContent : String := "boom"

def sampleAssertText : String := "bad params"

/-- A fresh scope with a DTS client, for witnesses. -/
def sampleInit : ManagedTransferRun := initialState sampleName true 60 3600

/-- A fresh scope without a DTS client, for witnesses. -/
def sampleInitNoDts : ManagedTransferRun := initialState sampleName false 60 3600

/-- The handler after the run body logged a list of records. -/
def applyHandler (h : TransferRunLogger) (logs : List LogRecord) : TransferRunLogger :=
  logs.foldl TransferRunLogger.emit h

/-- The batch flushed by scope exit's immediate update: the buffered
messages plus the freshly logged traceback when an exception occurred, or
the synthetic processing entry when there was no exception and the buffer
was empty. -/
def exitBatch (s : ManagedTransferRun) (exc : Option PyExc) : List TransferMessage :=
  match exc with
  | some e => s.handler.msgs ++ [⟨s.now, Severity.ERROR, formatTracebackText e⟩]
  | none => if s.handler.msgs = [] then [processingMsg s] else s.handler.msgs

/-- The events scope exit emits between the flush and the finish_run call:
the FAILED patch (plus its local log line) on an exception, or only the
local success log line otherwise. -/
def exitStateEvents (name : String) (exc : Option PyExc) : List Event :=
  match exc with
  | some _ => [Event.dtsPatchState TransferState.FAILED,
               Event.localLog Severity.INFO (finishingFailedText name)]
  | none => [Event.localLog Severity.INFO (finishingSuccessText name)]

/-- The two timer-stop events scope exit always emits first. -/
def exitStops : List Event :=
  [Event.timerStop TimerKind.timeoutTimer, Event.timerStop TimerKind.updateTimer]

/-- The trace of a scope entry without a DTS client. -/
def enterEventsNoDts (name : String) : List Event :=
  [Event.localLog Severity.INFO (startingText name),
   Event.timerStart TimerKind.updateTimer,
   Event.timerStart TimerKind.timeoutTimer]

/-- The trace of a scope entry with a DTS client whose RUNNING patch
succeeded. -/
def enterEventsDts (name : String) : List Event :=
  enterEventsNoDts name ++
    [Event.localLog Severity.INFO (startingRunText name),
     Event.dtsPatchState TransferState.RUNNING]

/-- The state returned by __enter__ with a DTS client whose RUNNING patch
succeeded. -/
def enteredState (name : String) (u t : Nat) : ManagedTransferRun :=
  { name := name, hasDts := true, updateInterval := u, timeoutInterval := t,
    handler := ⟨[]⟩, timeoutRunning := true, updateRunning := true,
    lifecycle := TransferState.RUNNING, now := 0, trace := enterEventsDts name }

/-- The state returned by __enter__ without a DTS client. -/
def enteredStateNoDts (name : String) (u t : Nat) : ManagedTransferRun :=
  { name := name, hasDts := false, updateInterval := u, timeoutInterval := t,
    handler := ⟨[]⟩, timeoutRunning := true, updateRunning := true,
    lifecycle := TransferState.RUNNING, now := 0, trace := enterEventsNoDts name }

/-- The coordinator state right after a normal scope entry. -/
def scopeEnterState (name : String) (d : Bool) (u t : Nat) : ManagedTransferRun :=
  (ManagedTransferRun.enterRun (initialState name d u t) none).state

/-- The coordinator state after the run body logged its records. -/
def scopeBodyState (name : String) (d : Bool) (u t : Nat) (bodyLogs : List LogRecord) :
    ManagedTransferRun :=
  applyLogs (scopeEnterState name d u t) bodyLogs

/-- The coordinator state after scope exit. -/
def scopeExitState (name : String) (d : Bool) (u t : Nat) (bodyLogs : List LogRecord)
    (bodyExc : Option PyExc) : ManagedTransferRun :=
  (ManagedTransferRun.exitRun (scopeBodyState name d u t bodyLogs) bodyExc).1

/-- The machine reached by running, from a freshly entered scope, an
arbitrary schedule in which the timeout timer fires after some heartbeats
and before the run body completes. -/
def timeoutScenario (name : String) (u t : Nat) (pre post : List SchedAction) : ScopeMachine :=
  machineRun (machineInit name u t) (pre ++ SchedAction.timeoutFire :: post)

/-- Number of changes along a sequence of run states. -/
def countChanges : List TransferState → Nat
  | [] => 0
  | [_] => 0
  | a :: b :: rest => (if a = b then 0 else 1) + countChanges (b :: rest)

/-!
Lemma layer: characterizations of the heartbeat callback, scope exit and
scope entry, used by the claim theorems below.
-/

lemma update_bq_dts_noDts (s : ManagedTransferRun) (hd : s.hasDts = false) :
    ManagedTransferRun.update_bq_dts s = { s with handler := ⟨[]⟩ } := by
  unfold ManagedTransferRun.update_bq_dts
  by_cases he : s.handler.msgs.isEmpty <;>
    simp [he, hd, runLoggerInfo, runLoggerLog, TransferRunLogger.flush]

lemma update_bq_dts_dts_empty (s : ManagedTransferRun) (hd : s.hasDts = true)
    (he : s.handler.msgs = []) :
    ManagedTransferRun.update_bq_dts s =
      { s with handler := ⟨[]⟩,
               trace := s.trace ++ [Event.dtsLogMessages [processingMsg s]] } := by
  unfold ManagedTransferRun.update_bq_dts
  simp [he, hd, runLoggerInfo, runLoggerLog, TransferRunLogger.emit,
    LEVEL_TO_SEVERITY_MAP, TransferRunLogger.flush, emitEvent, processingMsg]

lemma update_bq_dts_dts_nonempty (s : ManagedTransferRun) (hd : s.hasDts = true)
    (he : s.handler.msgs ≠ []) :
    ManagedTransferRun.update_bq_dts s =
      { s with handler := ⟨[]⟩,
               trace := s.trace ++ [Event.dtsLogMessages s.handler.msgs] } := by
  unfold ManagedTransferRun.update_bq_dts
  have he' : s.handler.msgs.isEmpty = false := by
    cases hm : s.handler.msgs with
    | nil => exact absurd hm he
    | cons m rest => rfl
  simp [he', hd, TransferRunLogger.flush, emitEvent]

/-- C7: on every heartbeat tick with a tracking-service client configured,
exactly one batch is submitted; the batch is never empty; the buffer is
cleared; a tick on an empty buffer submits exactly the synthetic
processing entry, and a tick on a non-empty buffer submits exactly the
buffered entries. -/
theorem heartbeat_tick_submits_nonempty_batch (s : ManagedTransferRun)
    (hd : s.hasDts = true) :
    ∃ batch,
      (ManagedTransferRun.update_bq_dts s).trace = s.trace ++ [Event.dtsLogMessages batch] ∧
      batch ≠ [] ∧
      (ManagedTransferRun.update_bq_dts s).handler.msgs = [] ∧
      (s.handler.msgs = [] → batch = [processingMsg s]) ∧
      (s.handler.msgs ≠ [] → batch = s.handler.msgs) := by
  by_cases he : s.handler.msgs = []
  · refine ⟨[processingMsg s], ?_⟩
    rw [update_bq_dts_dts_empty s hd he]
    simp [he]
  · refine ⟨s.handler.msgs, ?_⟩
    rw [update_bq_dts_dts_nonempty s hd he]
    simp [he]

theorem heartbeat_tick_submits_nonempty_batch_witness :
    sampleInit.hasDts = true ∧
    ∃ batch,
      (ManagedTransferRun.update_bq_dts sampleInit).trace =
        sampleInit.trace ++ [Event.dtsLogMessages batch] ∧
      batch ≠ [] ∧
      (ManagedTransferRun.update_bq_dts sampleInit).handler.msgs = [] ∧
      (sampleInit.handler.msgs = [] → batch = [processingMsg sampleInit]) ∧
      (sampleInit.handler.msgs ≠ [] → batch = sampleInit.handler.msgs) :=
  ⟨rfl, heartbeat_tick_submits_nonempty_batch sampleInit rfl⟩

/-- C10: every heartbeat tick leaves the buffer empty, whether or not a
tracking-service client is configured; without one the tick performs no
externally observable action at all, so the drained entries are
discarded. -/
theorem heartbeat_tick_clears_buffer_unconditionally (s : ManagedTransferRun) :
    (ManagedTransferRun.update_bq_dts s).handler.msgs = [] ∧
    (s.hasDts = false → ManagedTransferRun.update_bq_dts s = { s with handler := ⟨[]⟩ }) := by
  constructor
  · by_cases hd : s.hasDts
    · by_cases he : s.handler.msgs = []
      · rw [update_bq_dts_dts_empty s hd he]
      · rw [update_bq_dts_dts_nonempty s hd he]
    · rw [update_bq_dts_noDts s (by simpa using hd)]
  · intro hd
    exact update_bq_dts_noDts s hd

theorem heartbeat_tick_clears_buffer_unconditionally_witness :
    (ManagedTransferRun.update_bq_dts sampleInitNoDts).handler.msgs = [] ∧
    (sampleInitNoDts.hasDts = false →
      ManagedTransferRun.update_bq_dts sampleInitNoDts = { sampleInitNoDts with handler := ⟨[]⟩ }) :=
  heartbeat_tick_clears_buffer_unconditionally sampleInitNoDts

lemma applyLogs_eq (logs : List LogRecord) (s : ManagedTransferRun) :
    applyLogs s logs = { s with handler := applyHandler s.handler logs } := by
  induction logs generalizing s with
  | nil => rfl
  | cons r rest ih =>
    have h1 : applyLogs s (r :: rest) = applyLogs { s with handler := s.handler.emit r } rest := rfl
    have h2 : applyHandler s.handler (r :: rest) = applyHandler (s.handler.emit r) rest := rfl
    rw [h1, h2, ih]

lemma isHttpError_elim {exc : Option PyExc} (hx : isHttpError exc = true) :
    ∃ st c, exc = some (PyExc.httpError st c) := by
  match exc with
  | none => simp [isHttpError] at hx
  | some (PyExc.httpError st c) => exact ⟨st, c, rfl⟩
  | some (PyExc.assertionError m) => simp [isHttpError] at hx
  | some PyExc.timeoutError => simp [isHttpError] at hx
  | some (PyExc.otherError m) => simp [isHttpError] at hx

lemma exitRun_httpError (s : ManagedTransferRun) (st : Nat) (c : String) :
    ManagedTransferRun.exitRun s (some (PyExc.httpError st c)) =
      ({ s with
          trace := s.trace ++ exitStops,
          timeoutRunning := false, updateRunning := false,
          lifecycle := TransferState.FAILED }, false) := by
  unfold ManagedTransferRun.exitRun
  simp [stopTimer, emitEvent, isHttpError, exitStops]

lemma exitRun_nonHttp_dts (s : ManagedTransferRun) (exc : Option PyExc)
    (hx : isHttpError exc = false) (hd : s.hasDts = true) :
    ManagedTransferRun.exitRun s exc =
      ({ s with
          trace := s.trace ++ exitStops ++ [Event.dtsLogMessages (exitBatch s exc)] ++ exitStateEvents s.name exc ++ [Event.dtsFinishRun, Event.localLog Severity.INFO (finishedText s.name)],
          timeoutRunning := false, updateRunning := false,
          handler := ⟨[]⟩,
          lifecycle := if exc.isSome then TransferState.FAILED else TransferState.SUCCEEDED },
        isAssertionError exc) := by
  cases exc with
  | none =>
    by_cases he : s.handler.msgs = [] <;>
      simp [ManagedTransferRun.exitRun, stopTimer, emitEvent, isHttpError, isAssertionError,
        hd, he, ManagedTransferRun.update_bq_dts, runLoggerInfo, runLoggerLog,
        TransferRunLogger.emit, LEVEL_TO_SEVERITY_MAP, infoLevelName, warningLevelName,
        errorLevelName, TransferRunLogger.flush, localLogInfo, exitBatch, exitStateEvents,
        processingMsg, List.isEmpty_iff, exitStops]
  | some e =>
    cases e with
    | httpError st c => simp [isHttpError] at hx
    | assertionError m =>
      simp [ManagedTransferRun.exitRun, stopTimer, emitEvent, isHttpError, isAssertionError,
        hd, ManagedTransferRun.update_bq_dts, runLoggerInfo, runLoggerError, runLoggerLog,
        TransferRunLogger.emit, LEVEL_TO_SEVERITY_MAP, infoLevelName, warningLevelName,
        errorLevelName, TransferRunLogger.flush, localLogInfo, exitBatch, exitStateEvents,
        List.isEmpty_iff, exitStops]
    | timeoutError =>
      simp [ManagedTransferRun.exitRun, stopTimer, emitEvent, isHttpError, isAssertionError,
        hd, ManagedTransferRun.update_bq_dts, runLoggerInfo, runLoggerError, runLoggerLog,
        TransferRunLogger.emit, LEVEL_TO_SEVERITY_MAP, infoLevelName, warningLevelName,
        errorLevelName, TransferRunLogger.flush, localLogInfo, exitBatch, exitStateEvents,
        List.isEmpty_iff, exitStops]
    | otherError m =>
      simp [ManagedTransferRun.exitRun, stopTimer, emitEvent, isHttpError, isAssertionError,
        hd, ManagedTransferRun.update_bq_dts, runLoggerInfo, runLoggerError, runLoggerLog,
        TransferRunLogger.emit, LEVEL_TO_SEVERITY_MAP, infoLevelName, warningLevelName,
        errorLevelName, TransferRunLogger.flush, localLogInfo, exitBatch, exitStateEvents,
        List.isEmpty_iff, exitStops]

lemma exitRun_nonHttp_noDts (s : ManagedTransferRun) (exc : Option PyExc)
    (hx : isHttpError exc = false) (hd : s.hasDts = false) :
    ManagedTransferRun.exitRun s exc =
      ({ s with
          trace := s.trace ++ exitStops ++ [Event.localLog Severity.INFO (finishedText s.name)],
          timeoutRunning := false, updateRunning := false,
          handler := (match exc with
            | some e => ⟨s.handler.msgs ++ [⟨s.now, Severity.ERROR, formatTracebackText e⟩]⟩
            | none => s.handler),
          lifecycle := if exc.isSome then TransferState.FAILED else TransferState.SUCCEEDED },
        isAssertionError exc) := by
  cases exc with
  | none =>
    simp [ManagedTransferRun.exitRun, stopTimer, emitEvent, isHttpError, isAssertionError,
      hd, localLogInfo, exitStops]
  | some e =>
    cases e with
    | httpError st c => simp [isHttpError] at hx
    | assertionError m =>
      simp [ManagedTransferRun.exitRun, stopTimer, emitEvent, isHttpError, isAssertionError,
        hd, runLoggerError, runLoggerLog, TransferRunLogger.emit, LEVEL_TO_SEVERITY_MAP,
        infoLevelName, warningLevelName, errorLevelName, localLogInfo, exitStops]
    | timeoutError =>
      simp [ManagedTransferRun.exitRun, stopTimer, emitEvent, isHttpError, isAssertionError,
        hd, runLoggerError, runLoggerLog, TransferRunLogger.emit, LEVEL_TO_SEVERITY_MAP,
        infoLevelName, warningLevelName, errorLevelName, localLogInfo, exitStops]
    | otherError m =>
      simp [ManagedTransferRun.exitRun, stopTimer, emitEvent, isHttpError, isAssertionError,
        hd, runLoggerError, runLoggerLog, TransferRunLogger.emit, LEVEL_TO_SEVERITY_MAP,
        infoLevelName, warningLevelName, errorLevelName, localLogInfo, exitStops]

lemma enterRun_none_dts (name : String) (u t : Nat) :
    ManagedTransferRun.enterRun (initialState name true u t) none =
      EnterResult.ok (enteredState name u t) := rfl

lemma enterRun_none_noDts (name : String) (u t : Nat) :
    ManagedTransferRun.enterRun (initialState name false u t) none =
      EnterResult.ok (enteredStateNoDts name u t) := rfl

lemma exitRun_core (s : ManagedTransferRun) (exc : Option PyExc) :
    (∃ rest, (ManagedTransferRun.exitRun s exc).1.trace =
        s.trace ++ Event.timerStop TimerKind.timeoutTimer ::
          Event.timerStop TimerKind.updateTimer :: rest) ∧
    (ManagedTransferRun.exitRun s exc).1.timeoutRunning = false ∧
    (ManagedTransferRun.exitRun s exc).1.updateRunning = false ∧
    (ManagedTransferRun.exitRun s exc).1.lifecycle =
      (if exc.isSome then TransferState.FAILED else TransferState.SUCCEEDED) ∧
    (ManagedTransferRun.exitRun s exc).2 = isAssertionError exc := by
  by_cases hx : isHttpError exc
  · obtain ⟨st, c, rfl⟩ := isHttpError_elim hx
    rw [exitRun_httpError]
    refine ⟨⟨[], by simp [exitStops]⟩, rfl, rfl, rfl, rfl⟩
  · have hx' : isHttpError exc = false := by simpa using hx
    by_cases hd : s.hasDts
    · rw [exitRun_nonHttp_dts s exc hx' hd]
      refine ⟨⟨Event.dtsLogMessages (exitBatch s exc) :: (exitStateEvents s.name exc ++
        [Event.dtsFinishRun, Event.localLog Severity.INFO (finishedText s.name)]), by simp [exitStops]⟩,
        rfl, rfl, rfl, rfl⟩
    · have hd' : s.hasDts = false := by simpa using hd
      rw [exitRun_nonHttp_noDts s exc hx' hd']
      refine ⟨⟨[Event.localLog Severity.INFO (finishedText s.name)], by simp [exitStops]⟩, rfl, rfl, rfl, rfl⟩

lemma scopeEnterState_dts (name : String) (u t : Nat) :
    scopeEnterState name true u t = enteredState name u t := by
  rw [scopeEnterState, enterRun_none_dts]; rfl

lemma scopeEnterState_noDts (name : String) (u t : Nat) :
    scopeEnterState name false u t = enteredStateNoDts name u t := by
  rw [scopeEnterState, enterRun_none_noDts]; rfl

lemma scopeBodyState_dts (name : String) (u t : Nat) (logs : List LogRecord) :
    scopeBodyState name true u t logs =
      { enteredState name u t with handler := applyHandler ⟨[]⟩ logs } := by
  rw [scopeBodyState, scopeEnterState_dts, applyLogs_eq]; rfl

lemma scopeBodyState_noDts (name : String) (u t : Nat) (logs : List LogRecord) :
    scopeBodyState name false u t logs =
      { enteredStateNoDts name u t with handler := applyHandler ⟨[]⟩ logs } := by
  rw [scopeBodyState, scopeEnterState_noDts, applyLogs_eq]; rfl

lemma exitBatch_ne_nil (s : ManagedTransferRun) (exc : Option PyExc) :
    exitBatch s exc ≠ [] := by
  cases exc with
  | none =>
    by_cases he : s.handler.msgs = [] <;> simp [exitBatch, he]
  | some e => simp [exitBatch]

/-- C1: however a normally entered scope exits (no error, a run-body
error, or the timeout error), scope exit first stops the timeout timer,
then the heartbeat timer, before anything else it does - in particular
before any terminal-state report or other tracking-service call it makes -
and the abstract run state moves from RUNNING to a terminal state exactly
once over the whole scope. -/
theorem scope_exit_timer_order_and_single_transition
    (name : String) (d : Bool) (u t : Nat) (bodyLogs : List LogRecord)
    (bodyExc : Option PyExc) :
    (∃ rest, (scopeExitState name d u t bodyLogs bodyExc).trace =
        (scopeBodyState name d u t bodyLogs).trace ++
          Event.timerStop TimerKind.timeoutTimer ::
            Event.timerStop TimerKind.updateTimer :: rest) ∧
    (scopeExitState name d u t bodyLogs bodyExc).timeoutRunning = false ∧
    (scopeExitState name d u t bodyLogs bodyExc).updateRunning = false ∧
    ((scopeExitState name d u t bodyLogs bodyExc).lifecycle = TransferState.SUCCEEDED ∨
      (scopeExitState name d u t bodyLogs bodyExc).lifecycle = TransferState.FAILED) ∧
    countChanges [(initialState name d u t).lifecycle,
      (scopeEnterState name d u t).lifecycle,
      (scopeBodyState name d u t bodyLogs).lifecycle,
      (scopeExitState name d u t bodyLogs bodyExc).lifecycle] = 1 := by
  obtain ⟨hr, hto, hup, hlc, _⟩ := exitRun_core (scopeBodyState name d u t bodyLogs) bodyExc
  have hinit : (initialState name d u t).lifecycle = TransferState.RUNNING := rfl
  have hent : (scopeEnterState name d u t).lifecycle = TransferState.RUNNING := by
    cases d
    · rw [scopeEnterState_noDts]; rfl
    · rw [scopeEnterState_dts]; rfl
  have hbody : (scopeBodyState name d u t bodyLogs).lifecycle = TransferState.RUNNING := by
    rw [scopeBodyState, applyLogs_eq]; exact hent
  have hexit : (scopeExitState name d u t bodyLogs bodyExc).lifecycle =
      (if bodyExc.isSome then TransferState.FAILED else TransferState.SUCCEEDED) := hlc
  refine ⟨hr, hto, hup, ?_, ?_⟩
  · rw [hexit]
    cases bodyExc <;> simp
  · rw [hinit, hent, hbody, hexit]
    cases bodyExc <;> simp [countChanges]

/-- C2 counterexample: a scope exit with a tracking-service client and no
triggering error makes exactly the flush call and the finish_run call; no
SUCCEEDED state report is ever sent, refuting the claim that the final
state is reported as SUCCEEDED between the flush and the completion
report. -/
theorem success_reports_no_succeeded_patch :
    sampleInit.hasDts = true ∧
    isHttpError none = false ∧
    Event.dtsPatchState TransferState.SUCCEEDED ∉
      (scopeExitState sampleName true 60 3600 [] none).trace ∧
    dtsCalls ((scopeExitState sampleName true 60 3600 [] none).trace.drop
        (scopeBodyState sampleName true 60 3600 []).trace.length) =
      [Event.dtsLogMessages [⟨0, Severity.INFO, processingText⟩], Event.dtsFinishRun] := by
  refine ⟨rfl, rfl, ?_, ?_⟩ <;> decide

/-- C2 (amended): for every scope exit with a tracking-service client and
a triggering error that is not a remote-API (HttpError) error - any
HttpError short-circuits exit - the coordinator first flushes the buffer
immediately with a never-empty batch, then patches state FAILED exactly
when an error occurred (no state report at all is sent on success), and
then reports run completion via finish_run. -/
theorem exit_flush_then_failed_then_finish (name : String) (u t : Nat)
    (bodyLogs : List LogRecord) (bodyExc : Option PyExc)
    (hx : isHttpError bodyExc = false) :
    ∃ batch, batch ≠ [] ∧
      dtsCalls ((scopeExitState name true u t bodyLogs bodyExc).trace.drop
          (scopeBodyState name true u t bodyLogs).trace.length) =
        Event.dtsLogMessages batch ::
          ((if bodyExc.isSome then [Event.dtsPatchState TransferState.FAILED] else []) ++
            [Event.dtsFinishRun]) := by
  have hd : (scopeBodyState name true u t bodyLogs).hasDts = true := by
    rw [scopeBodyState_dts]; rfl
  refine ⟨exitBatch (scopeBodyState name true u t bodyLogs) bodyExc,
    exitBatch_ne_nil _ _, ?_⟩
  have hx2 := exitRun_nonHttp_dts (scopeBodyState name true u t bodyLogs) bodyExc hx hd
  have htr : (scopeExitState name true u t bodyLogs bodyExc).trace =
      (scopeBodyState name true u t bodyLogs).trace ++
        (exitStops ++ [Event.dtsLogMessages (exitBatch (scopeBodyState name true u t bodyLogs) bodyExc)] ++
          exitStateEvents (scopeBodyState name true u t bodyLogs).name bodyExc ++
          [Event.dtsFinishRun, Event.localLog Severity.INFO
            (finishedText (scopeBodyState name true u t bodyLogs).name)]) := by
    rw [scopeExitState, hx2]
    simp
  rw [htr, List.drop_left]
  cases bodyExc <;>
    simp [dtsCalls, exitStops, exitStateEvents, Event.isDtsCall]

theorem exit_flush_then_failed_then_finish_witness :
    isHttpError none = false ∧
    ∃ batch, batch ≠ [] ∧
      dtsCalls ((scopeExitState sampleName true 60 3600 [] none).trace.drop
          (scopeBodyState sampleName true 60 3600 []).trace.length) =
        Event.dtsLogMessages batch ::
          ((if (none : Option PyExc).isSome then [Event.dtsPatchState TransferState.FAILED] else []) ++
            [Event.dtsFinishRun]) :=
  ⟨rfl, exit_flush_then_failed_then_finish sampleName 60 3600 [] none rfl⟩

lemma runScope_dts_eq (name : String) (u t : Nat) (bodyLogs : List LogRecord)
    (bodyExc : Option PyExc) :
    runScope (initialState name true u t) none bodyLogs bodyExc =
      (match bodyExc with
       | none => ScopeOutcome.completed (scopeExitState name true u t bodyLogs none)
       | some e =>
         if (ManagedTransferRun.exitRun (scopeBodyState name true u t bodyLogs) (some e)).2
         then ScopeOutcome.completed (scopeExitState name true u t bodyLogs (some e))
         else ScopeOutcome.escaped (scopeExitState name true u t bodyLogs (some e)) e) := by
  cases bodyExc <;> rfl

lemma scopeBodyState_trace_dts (name : String) (u t : Nat) (bodyLogs : List LogRecord) :
    (scopeBodyState name true u t bodyLogs).trace = enterEventsDts name := by
  rw [scopeBodyState_dts]; rfl

lemma scopeExitState_http (name : String) (u t : Nat) (bodyLogs : List LogRecord)
    (status : Nat) (content : String) :
    scopeExitState name true u t bodyLogs (some (PyExc.httpError status content)) =
      { scopeBodyState name true u t bodyLogs with
          trace := (scopeBodyState name true u t bodyLogs).trace ++ exitStops,
          timeoutRunning := false, updateRunning := false,
          lifecycle := TransferState.FAILED } := by
  rw [scopeExitState, exitRun_httpError]

lemma runScope_http_escapes (name : String) (u t : Nat) (bodyLogs : List LogRecord)
    (status : Nat) (content : String) :
    runScope (initialState name true u t) none bodyLogs (some (PyExc.httpError status content)) =
      ScopeOutcome.escaped
        (scopeExitState name true u t bodyLogs (some (PyExc.httpError status content)))
        (PyExc.httpError status content) := by
  have hfalse : (ManagedTransferRun.exitRun (scopeBodyState name true u t bodyLogs)
      (some (PyExc.httpError status content))).2 = false := by
    rw [exitRun_httpError]
  rw [runScope_dts_eq]
  simp [hfalse]

/-- C3: a run-body HttpError with status 400 or 404 short-circuits scope
exit after the timer stops - no flush, no state patch, no finish_run - the
error escapes the scope verbatim, and the pub/sub callback logs two error
lines and then acks (never nacks) the message. -/
theorem unrecoverable_http_exits_immediately_and_acked
    (name : String) (u t : Nat) (bodyLogs : List LogRecord) (status : Nat) (content : String)
    (hs : status = 400 ∨ status = 404) :
    runScope (initialState name true u t) none bodyLogs (some (PyExc.httpError status content)) =
      ScopeOutcome.escaped
        (scopeExitState name true u t bodyLogs (some (PyExc.httpError status content)))
        (PyExc.httpError status content) ∧
    dtsCalls ((scopeExitState name true u t bodyLogs
        (some (PyExc.httpError status content))).trace.drop
        (scopeBodyState name true u t bodyLogs).trace.length) = [] ∧
    (pubsubCallback (initialState name true u t) none bodyLogs
        (some (PyExc.httpError status content))).propagated = none ∧
    (pubsubCallback (initialState name true u t) none bodyLogs
        (some (PyExc.httpError status content))).final.trace =
      (scopeExitState name true u t bodyLogs (some (PyExc.httpError status content))).trace ++
        [Event.localLog Severity.ERROR (unrecoverableText status),
         Event.localLog Severity.ERROR content, Event.msgAck] ∧
    Event.msgNack ∉ (pubsubCallback (initialState name true u t) none bodyLogs
        (some (PyExc.httpError status content))).final.trace := by
  have hesc := runScope_http_escapes name u t bodyLogs status content
  have hxt := scopeExitState_http name u t bodyLogs status content
  have hcb : pubsubCallback (initialState name true u t) none bodyLogs
      (some (PyExc.httpError status content)) =
      ⟨emitEvent (localLogError (localLogError
          (scopeExitState name true u t bodyLogs (some (PyExc.httpError status content)))
          (unrecoverableText status)) content) Event.msgAck, none⟩ := by
    unfold pubsubCallback
    rw [hesc]
    simp [hs]
  refine ⟨hesc, ?_, ?_, ?_, ?_⟩
  · rw [hxt]
    simp [List.drop_left, dtsCalls, exitStops, Event.isDtsCall]
  · rw [hcb]
  · rw [hcb]
    simp [localLogError, emitEvent]
  · rw [hcb]
    simp only [localLogError, emitEvent]
    rw [hxt]
    simp [scopeBodyState_trace_dts, enterEventsDts, enterEventsNoDts, exitStops]

theorem unrecoverable_http_exits_immediately_and_acked_witness :
    ((400 : Nat) = 400 ∨ (400 : Nat) = 404) ∧
    (runScope (initialState sampleName true 60 3600) none []
        (some (PyExc.httpError 400 sampleContent)) =
      ScopeOutcome.escaped
        (scopeExitState sampleName true 60 3600 [] (some (PyExc.httpError 400 sampleContent)))
        (PyExc.httpError 400 sampleContent) ∧
    dtsCalls ((scopeExitState sampleName true 60 3600 []
        (some (PyExc.httpError 400 sampleContent))).trace.drop
        (scopeBodyState sampleName true 60 3600 []).trace.length) = [] ∧
    (pubsubCallback (initialState sampleName true 60 3600) none []
        (some (PyExc.httpError 400 sampleContent))).propagated = none ∧
    (pubsubCallback (initialState sampleName true 60 3600) none []
        (some (PyExc.httpError 400 sampleContent))).final.trace =
      (scopeExitState sampleName true 60 3600 []
          (some (PyExc.httpError 400 sampleContent))).trace ++
        [Event.localLog Severity.ERROR (unrecoverableText 400),
         Event.localLog Severity.ERROR sampleContent, Event.msgAck] ∧
    Event.msgNack ∉ (pubsubCallback (initialState sampleName true 60 3600) none []
        (some (PyExc.httpError 400 sampleContent))).final.trace) :=
  ⟨Or.inl rfl,
    unrecoverable_http_exits_immediately_and_acked sampleName 60 3600 [] 400 sampleContent
      (Or.inl rfl)⟩

/-- C4 counterexample: for a run-body HttpError with status 500 (a
recoverable remote-API error), the message is nacked but no FAILED state
report is ever sent - scope exit short-circuits on every HttpError - so
the claim that the FAILED state is reported to the tracking service fails
at this input. -/
theorem recoverable_http_no_failed_report :
    Event.dtsPatchState TransferState.FAILED ∉
      (pubsubCallback sampleInit none [] (some (PyExc.httpError 500 sampleContent))).final.trace ∧
    Event.msgNack ∈
      (pubsubCallback sampleInit none [] (some (PyExc.httpError 500 sampleContent))).final.trace := by
  refine ⟨?_, ?_⟩ <;> decide

/-- C4 (amended): for every scope whose triggering error is a recoverable
remote-API error (an HttpError whose status is neither 400 nor 404), scope
exit makes no tracking-service call at all - in particular no FAILED state
report, since every HttpError short-circuits exit - and the queue message
is negatively-acknowledged for redelivery (never acked). -/
theorem recoverable_http_nacked_without_failed_report
    (name : String) (u t : Nat) (bodyLogs : List LogRecord) (status : Nat) (content : String)
    (hs : ¬(status = 400 ∨ status = 404)) :
    dtsCalls ((scopeExitState name true u t bodyLogs
        (some (PyExc.httpError status content))).trace.drop
        (scopeBodyState name true u t bodyLogs).trace.length) = [] ∧
    Event.dtsPatchState TransferState.FAILED ∉
      (pubsubCallback (initialState name true u t) none bodyLogs
        (some (PyExc.httpError status content))).final.trace ∧
    (pubsubCallback (initialState name true u t) none bodyLogs
        (some (PyExc.httpError status content))).final.trace =
      (scopeExitState name true u t bodyLogs (some (PyExc.httpError status content))).trace ++
        [Event.msgNack] ∧
    (pubsubCallback (initialState name true u t) none bodyLogs
        (some (PyExc.httpError status content))).propagated = none ∧
    Event.msgAck ∉ (pubsubCallback (initialState name true u t) none bodyLogs
        (some (PyExc.httpError status content))).final.trace := by
  have hesc := runScope_http_escapes name u t bodyLogs status content
  have hxt := scopeExitState_http name u t bodyLogs status content
  have hcb : pubsubCallback (initialState name true u t) none bodyLogs
      (some (PyExc.httpError status content)) =
      ⟨emitEvent (scopeExitState name true u t bodyLogs
          (some (PyExc.httpError status content))) Event.msgNack, none⟩ := by
    unfold pubsubCallback
    rw [hesc]
    simp [hs]
  refine ⟨?_, ?_, ?_, ?_, ?_⟩
  · rw [hxt]
    simp [List.drop_left, dtsCalls, exitStops, Event.isDtsCall]
  · rw [hcb]
    simp only [emitEvent]
    rw [hxt]
    simp [scopeBodyState_trace_dts, enterEventsDts, enterEventsNoDts, exitStops]
  · rw [hcb]
    simp [emitEvent]
  · rw [hcb]
  · rw [hcb]
    simp only [emitEvent]
    rw [hxt]
    simp [scopeBodyState_trace_dts, enterEventsDts, enterEventsNoDts, exitStops]

theorem recoverable_http_nacked_without_failed_report_witness :
    ¬((500 : Nat) = 400 ∨ (500 : Nat) = 404) ∧
    (dtsCalls ((scopeExitState sampleName true 60 3600 []
        (some (PyExc.httpError 500 sampleContent))).trace.drop
        (scopeBodyState sampleName true 60 3600 []).trace.length) = [] ∧
    Event.dtsPatchState TransferState.FAILED ∉
      (pubsubCallback (initialState sampleName true 60 3600) none []
        (some (PyExc.httpError 500 sampleContent))).final.trace ∧
    (pubsubCallback (initialState sampleName true 60 3600) none []
        (some (PyExc.httpError 500 sampleContent))).final.trace =
      (scopeExitState sampleName true 60 3600 []
          (some (PyExc.httpError 500 sampleContent))).trace ++ [Event.msgNack] ∧
    (pubsubCallback (initialState sampleName true 60 3600) none []
        (some (PyExc.httpError 500 sampleContent))).propagated = none ∧
    Event.msgAck ∉ (pubsubCallback (initialState sampleName true 60 3600) none []
        (some (PyExc.httpError 500 sampleContent))).final.trace) :=
  ⟨by decide,
    recoverable_http_nacked_without_failed_report sampleName 60 3600 [] 500 sampleContent
      (by decide)⟩

lemma scopeBodyState_hasDts (name : String) (u t : Nat) (bodyLogs : List LogRecord) :
    (scopeBodyState name true u t bodyLogs).hasDts = true := by
  rw [scopeBodyState_dts]; rfl

/-- C5: a run-body AssertionError (validation failure) is suppressed by
scope exit - the scope completes without re-raising - after the traceback
was logged at ERROR severity into the submitted batch and FAILED was
reported to the tracking service, and the pub/sub callback acks the
message; and every other error that is neither an AssertionError nor an
HttpError escapes the scope verbatim, after the FAILED report was
already made. -/
theorem assertion_suppressed_reported_failed_acked :
    (∀ (name : String) (u t : Nat) (bodyLogs : List LogRecord) (m : String),
      runScope (initialState name true u t) none bodyLogs (some (PyExc.assertionError m)) =
        ScopeOutcome.completed
          (scopeExitState name true u t bodyLogs (some (PyExc.assertionError m))) ∧
      Event.dtsPatchState TransferState.FAILED ∈
        (scopeExitState name true u t bodyLogs (some (PyExc.assertionError m))).trace ∧
      (∃ batch, Event.dtsLogMessages batch ∈
          (scopeExitState name true u t bodyLogs (some (PyExc.assertionError m))).trace ∧
        ∃ mg, mg ∈ batch ∧ mg.severity = Severity.ERROR ∧
          mg.message_text = formatTracebackText (PyExc.assertionError m)) ∧
      (pubsubCallback (initialState name true u t) none bodyLogs
          (some (PyExc.assertionError m))).final.trace =
        (scopeExitState name true u t bodyLogs (some (PyExc.assertionError m))).trace ++
          [Event.msgAck] ∧
      (pubsubCallback (initialState name true u t) none bodyLogs
          (some (PyExc.assertionError m))).propagated = none) ∧
    (∀ (name : String) (u t : Nat) (bodyLogs : List LogRecord) (e : PyExc),
      isHttpError (some e) = false → isAssertionError (some e) = false →
      runScope (initialState name true u t) none bodyLogs (some e) =
        ScopeOutcome.escaped (scopeExitState name true u t bodyLogs (some e)) e ∧
      Event.dtsPatchState TransferState.FAILED ∈
        (scopeExitState name true u t bodyLogs (some e)).trace) := by
  constructor
  · intro name u t bodyLogs m
    have hx : isHttpError (some (PyExc.assertionError m)) = false := rfl
    have hd := scopeBodyState_hasDts name u t bodyLogs
    have hpair := exitRun_nonHttp_dts (scopeBodyState name true u t bodyLogs)
      (some (PyExc.assertionError m)) hx hd
    have hsup : (ManagedTransferRun.exitRun (scopeBodyState name true u t bodyLogs)
        (some (PyExc.assertionError m))).2 = true := by
      rw [hpair]; rfl
    have htr : (scopeExitState name true u t bodyLogs (some (PyExc.assertionError m))).trace =
        (scopeBodyState name true u t bodyLogs).trace ++ exitStops ++
          [Event.dtsLogMessages (exitBatch (scopeBodyState name true u t bodyLogs)
            (some (PyExc.assertionError m)))] ++
          exitStateEvents (scopeBodyState name true u t bodyLogs).name
            (some (PyExc.assertionError m)) ++
          [Event.dtsFinishRun, Event.localLog Severity.INFO
            (finishedText (scopeBodyState name true u t bodyLogs).name)] := by
      rw [scopeExitState, hpair]
    have hcomp : runScope (initialState name true u t) none bodyLogs
        (some (PyExc.assertionError m)) =
        ScopeOutcome.completed
          (scopeExitState name true u t bodyLogs (some (PyExc.assertionError m))) := by
      rw [runScope_dts_eq]
      simp [hsup]
    have hcb : pubsubCallback (initialState name true u t) none bodyLogs
        (some (PyExc.assertionError m)) =
        ⟨emitEvent (scopeExitState name true u t bodyLogs (some (PyExc.assertionError m)))
          Event.msgAck, none⟩ := by
      unfold pubsubCallback
      rw [hcomp]
    refine ⟨hcomp, ?_, ?_, ?_, ?_⟩
    · rw [htr]
      simp [exitStateEvents]
    · refine ⟨exitBatch (scopeBodyState name true u t bodyLogs) (some (PyExc.assertionError m)),
        ?_, ⟨(scopeBodyState name true u t bodyLogs).now, Severity.ERROR,
          formatTracebackText (PyExc.assertionError m)⟩, ?_, rfl, rfl⟩
      · rw [htr]
        simp
      · simp [exitBatch]
    · rw [hcb]
      simp [emitEvent]
    · rw [hcb]
  · intro name u t bodyLogs e hx ha
    have hd := scopeBodyState_hasDts name u t bodyLogs
    have hpair := exitRun_nonHttp_dts (scopeBodyState name true u t bodyLogs) (some e) hx hd
    have hsup : (ManagedTransferRun.exitRun (scopeBodyState name true u t bodyLogs)
        (some e)).2 = false := by
      rw [hpair]
      exact ha
    have htr : (scopeExitState name true u t bodyLogs (some e)).trace =
        (scopeBodyState name true u t bodyLogs).trace ++ exitStops ++
          [Event.dtsLogMessages (exitBatch (scopeBodyState name true u t bodyLogs) (some e))] ++
          exitStateEvents (scopeBodyState name true u t bodyLogs).name (some e) ++
          [Event.dtsFinishRun, Event.localLog Severity.INFO
            (finishedText (scopeBodyState name true u t bodyLogs).name)] := by
      rw [scopeExitState, hpair]
    constructor
    · rw [runScope_dts_eq]
      simp [hsup]
    · rw [htr]
      simp [exitStateEvents]

theorem assertion_suppressed_reported_failed_acked_witness :
    isHttpError (some PyExc.timeoutError) = false ∧
    isAssertionError (some PyExc.timeoutError) = false ∧
    (runScope (initialState sampleName true 60 3600) none [] (some PyExc.timeoutError) =
        ScopeOutcome.escaped
          (scopeExitState sampleName true 60 3600 [] (some PyExc.timeoutError))
          PyExc.timeoutError ∧
      Event.dtsPatchState TransferState.FAILED ∈
        (scopeExitState sampleName true 60 3600 [] (some PyExc.timeoutError)).trace) :=
  ⟨rfl, rfl,
    assertion_suppressed_reported_failed_acked.2 sampleName 60 3600 [] PyExc.timeoutError rfl rfl⟩

/-- C8: when the initial RUNNING report during scope entry fails with any
exception, scope exit runs immediately with that exception - both timers
end up stopped, with the two stop events recorded right after the entry
events - and the exception is re-raised out of __enter__ exactly when
scope exit does not suppress it (that is, unless it is an
AssertionError). -/
theorem enter_patch_failure_runs_exit_and_reraises (name : String) (u t : Nat) (e : PyExc) :
    (ManagedTransferRun.enterRun (initialState name true u t) (some e)).state.timeoutRunning
      = false ∧
    (ManagedTransferRun.enterRun (initialState name true u t) (some e)).state.updateRunning
      = false ∧
    (∃ rest, (ManagedTransferRun.enterRun (initialState name true u t) (some e)).state.trace =
        enterEventsDts name ++ Event.timerStop TimerKind.timeoutTimer ::
          Event.timerStop TimerKind.updateTimer :: rest) ∧
    (ManagedTransferRun.enterRun (initialState name true u t) (some e)).raisedExc =
      (if isAssertionError (some e) then none else some e) := by
  obtain ⟨⟨rest, htr⟩, hto, hup, _, hsup⟩ := exitRun_core (enteredState name u t) (some e)
  have hent : ManagedTransferRun.enterRun (initialState name true u t) (some e) =
      (if (ManagedTransferRun.exitRun (enteredState name u t) (some e)).2 = true then
        EnterResult.ok (ManagedTransferRun.exitRun (enteredState name u t) (some e)).1
      else
        EnterResult.raised (ManagedTransferRun.exitRun (enteredState name u t) (some e)).1 e) :=
    rfl
  rw [hent]
  by_cases ha : isAssertionError (some e) = true
  · have h2 : (ManagedTransferRun.exitRun (enteredState name u t) (some e)).2 = true := by
      rw [hsup, ha]
    simp only [h2, if_true, EnterResult.state, EnterResult.raisedExc, ha]
    exact ⟨hto, hup, ⟨rest, htr⟩, trivial⟩
  · have ha' : isAssertionError (some e) = false := by simpa using ha
    have h2 : (ManagedTransferRun.exitRun (enteredState name u t) (some e)).2 = false := by
      rw [hsup, ha']
    simp only [h2, Bool.false_eq_true, if_false, EnterResult.state, EnterResult.raisedExc, ha']
    exact ⟨hto, hup, ⟨rest, htr⟩, trivial⟩

lemma machineInit_eq (name : String) (u t : Nat) :
    machineInit name u t = ⟨enteredState name u t, false, none⟩ := rfl

lemma machineRun_cons (m : ScopeMachine) (a : SchedAction) (acts : List SchedAction) :
    machineRun m (a :: acts) = machineRun (machineStep m a) acts := rfl

lemma machineRun_append (m : ScopeMachine) (l1 l2 : List SchedAction) :
    machineRun m (l1 ++ l2) = machineRun (machineRun m l1) l2 := by
  simp [machineRun, List.foldl_append]

lemma machineStep_exited (m : ScopeMachine) (a : SchedAction) (hx : m.exited = true) :
    machineStep m a = m := by
  simp [machineStep, hx]

lemma machineRun_exited (acts : List SchedAction) (m : ScopeMachine) (hx : m.exited = true) :
    machineRun m acts = m := by
  induction acts with
  | nil => rfl
  | cons a rest ih => rw [machineRun_cons, machineStep_exited m a hx]; exact ih

lemma machineStep_heartbeat (m : ScopeMachine) (hx : m.exited = false)
    (hup : m.mtr.updateRunning = true) (hd : m.mtr.hasDts = true)
    (hh : m.mtr.handler.msgs = []) :
    machineStep m SchedAction.heartbeat =
      { m with mtr := { m.mtr with
          handler := ⟨[]⟩,
          trace := m.mtr.trace ++ [Event.heartbeatTick,
            Event.dtsLogMessages [⟨m.mtr.now, Severity.INFO, processingText⟩]] } } := by
  have hd' : (emitEvent m.mtr Event.heartbeatTick).hasDts = true := hd
  have hh' : (emitEvent m.mtr Event.heartbeatTick).handler.msgs = [] := hh
  unfold machineStep
  rw [hx, hup]
  simp only [Bool.false_eq_true, if_false, if_true]
  rw [update_bq_dts_dts_empty _ hd' hh']
  simp [emitEvent, processingMsg]

lemma machineRun_heartbeats (pre : List SchedAction)
    (hpre : ∀ a ∈ pre, a = SchedAction.heartbeat) :
    ∀ (m : ScopeMachine), m.exited = false → m.mtr.updateRunning = true →
      m.mtr.timeoutRunning = true → m.mtr.hasDts = true → m.mtr.handler.msgs = [] →
    ∃ E, (machineRun m pre).mtr.trace = m.mtr.trace ++ E ∧
      (∀ ev ∈ E, ev = Event.heartbeatTick ∨ ∃ b, ev = Event.dtsLogMessages b) ∧
      (machineRun m pre).exited = false ∧
      (machineRun m pre).mtr.updateRunning = true ∧
      (machineRun m pre).mtr.timeoutRunning = true ∧
      (machineRun m pre).mtr.hasDts = true ∧
      (machineRun m pre).mtr.handler.msgs = [] ∧
      (machineRun m pre).mtr.name = m.mtr.name ∧
      (machineRun m pre).mtr.timeoutInterval = m.mtr.timeoutInterval ∧
      (machineRun m pre).mtr.now = m.mtr.now := by
  induction pre with
  | nil =>
    intro m hx hup hto hd hh
    exact ⟨[], by simp [machineRun], by simp, hx, hup, hto, hd, hh, rfl, rfl, rfl⟩
  | cons a rest ih =>
    intro m hx hup hto hd hh
    have ha : a = SchedAction.heartbeat := hpre a (List.mem_cons_self a rest)
    subst ha
    have hpre' : ∀ b ∈ rest, b = SchedAction.heartbeat := fun b hb =>
      hpre b (List.mem_cons_of_mem _ hb)
    rw [machineRun_cons, machineStep_heartbeat m hx hup hd hh]
    obtain ⟨E, htr, hE, h1, h2, h3, h4, h5, h6, h7, h8⟩ :=
      ih hpre' { m with mtr := { m.mtr with
          handler := ⟨[]⟩,
          trace := m.mtr.trace ++ [Event.heartbeatTick,
            Event.dtsLogMessages [⟨m.mtr.now, Severity.INFO, processingText⟩]] } }
        hx hup hto hd rfl
    refine ⟨[Event.heartbeatTick,
        Event.dtsLogMessages [⟨m.mtr.now, Severity.INFO, processingText⟩]] ++ E, ?_, ?_,
      h1, h2, h3, h4, h5, h6, h7, h8⟩
    · rw [htr]; simp
    · intro ev hev
      rcases List.mem_append.mp hev with h | h
      · rcases List.mem_cons.mp h with h1 | h1
        · exact Or.inl h1
        · simp only [List.mem_singleton] at h1
          exact Or.inr ⟨_, h1⟩
      · exact hE ev h

lemma machineStep_timeoutFire (m : ScopeMachine) (hx : m.exited = false)
    (hto : m.mtr.timeoutRunning = true) (hd : m.mtr.hasDts = true)
    (hh : m.mtr.handler.msgs = []) :
    (machineStep m SchedAction.timeoutFire).exited = true ∧
    (machineStep m SchedAction.timeoutFire).exitExc = some (some PyExc.timeoutError) ∧
    (machineStep m SchedAction.timeoutFire).mtr.trace =
      m.mtr.trace ++ [Event.timeoutFired, Event.exitBegin] ++ exitStops ++
        [Event.dtsLogMessages
          [⟨m.mtr.now, Severity.ERROR, timeoutLogText m.mtr.timeoutInterval⟩,
           ⟨m.mtr.now, Severity.ERROR, formatTracebackText PyExc.timeoutError⟩]] ++
        exitStateEvents m.mtr.name (some PyExc.timeoutError) ++
        [Event.dtsFinishRun, Event.localLog Severity.INFO (finishedText m.mtr.name)] := by
  unfold machineStep
  rw [hx, hto]
  simp only [Bool.false_eq_true, if_false, if_true, ManagedTransferRun.timeout_cb]
  refine ⟨trivial, trivial, ?_⟩
  have hres := exitRun_nonHttp_dts
    (emitEvent (runLoggerError (emitEvent m.mtr Event.timeoutFired)
      (timeoutLogText (emitEvent m.mtr Event.timeoutFired).timeoutInterval)) Event.exitBegin)
    (some PyExc.timeoutError) rfl hd
  rw [hres]
  simp [emitEvent, runLoggerError, runLoggerLog, TransferRunLogger.emit,
    LEVEL_TO_SEVERITY_MAP, infoLevelName, warningLevelName, errorLevelName,
    exitBatch, exitStateEvents, hh, exitStops]

/-- C6: for every schedule in which the timeout timer fires (after any
number of heartbeats, before the run body completes), the timeout fires
exactly once; an ERROR entry naming the configured timeout interval is
submitted to the tracking service; scope exit runs carrying the
deadline-exceeded (TimeoutError) error; FAILED is reported; and no
heartbeat or timeout tick event occurs after scope exit begins, whatever
the rest of the schedule attempts. -/
theorem timeout_fires_once_reports_failed_no_late_ticks
    (name : String) (u t : Nat) (pre post : List SchedAction)
    (hpre : ∀ a ∈ pre, a = SchedAction.heartbeat) :
    (timeoutScenario name u t pre post).exitExc = some (some PyExc.timeoutError) ∧
    (timeoutScenario name u t pre post).mtr.trace.count Event.timeoutFired = 1 ∧
    Event.dtsPatchState TransferState.FAILED ∈ (timeoutScenario name u t pre post).mtr.trace ∧
    (∃ batch, Event.dtsLogMessages batch ∈ (timeoutScenario name u t pre post).mtr.trace ∧
      ∃ mg, mg ∈ batch ∧ mg.severity = Severity.ERROR ∧
        mg.message_text = timeoutLogText t) ∧
    (∃ t1 t2, (timeoutScenario name u t pre post).mtr.trace = t1 ++ Event.exitBegin :: t2 ∧
      Event.exitBegin ∉ t1 ∧ Event.exitBegin ∉ t2 ∧ ∀ ev ∈ t2, ev.isTick = false) := by
  obtain ⟨E, htr1, hE, hx1, hup1, hto1, hd1, hh1, hname1, hti1, hnow1⟩ :=
    machineRun_heartbeats pre hpre (machineInit name u t) rfl rfl rfl rfl rfl
  obtain ⟨hex2, hee2, htr2⟩ :=
    machineStep_timeoutFire (machineRun (machineInit name u t) pre) hx1 hto1 hd1 hh1
  have hts : timeoutScenario name u t pre post =
      machineStep (machineRun (machineInit name u t) pre) SchedAction.timeoutFire := by
    rw [timeoutScenario, machineRun_append, machineRun_cons]
    exact machineRun_exited post _ hex2
  have hEfired : Event.timeoutFired ∉ E := by
    intro hmem
    rcases hE _ hmem with h | ⟨b, h⟩ <;> simp at h
  have hEbegin : Event.exitBegin ∉ E := by
    intro hmem
    rcases hE _ hmem with h | ⟨b, h⟩ <;> simp at h
  have hfull : (timeoutScenario name u t pre post).mtr.trace =
      (enterEventsDts name ++ E) ++ [Event.timeoutFired, Event.exitBegin] ++ exitStops ++
        [Event.dtsLogMessages
          [⟨0, Severity.ERROR, timeoutLogText t⟩,
           ⟨0, Severity.ERROR, formatTracebackText PyExc.timeoutError⟩]] ++
        exitStateEvents name (some PyExc.timeoutError) ++
        [Event.dtsFinishRun, Event.localLog Severity.INFO (finishedText name)] := by
    rw [hts, htr2, htr1, hname1, hti1, hnow1]
    rfl
  refine ⟨?_, ?_, ?_, ?_, ?_⟩
  · rw [hts]
    exact hee2
  · rw [hfull]
    have hE0 : E.count Event.timeoutFired = 0 := List.count_eq_zero.mpr hEfired
    simp [List.count_append, hE0, exitStops, exitStateEvents, enterEventsDts,
      enterEventsNoDts, List.count_cons]
  · rw [hfull]
    simp [exitStateEvents]
  · refine ⟨[⟨0, Severity.ERROR, timeoutLogText t⟩,
      ⟨0, Severity.ERROR, formatTracebackText PyExc.timeoutError⟩], ?_,
      ⟨0, Severity.ERROR, timeoutLogText t⟩, by simp, rfl, rfl⟩
    rw [hfull]
    simp
  · refine ⟨(enterEventsDts name ++ E) ++ [Event.timeoutFired],
      exitStops ++
        [Event.dtsLogMessages
          [⟨0, Severity.ERROR, timeoutLogText t⟩,
           ⟨0, Severity.ERROR, formatTracebackText PyExc.timeoutError⟩]] ++
        exitStateEvents name (some PyExc.timeoutError) ++
        [Event.dtsFinishRun, Event.localLog Severity.INFO (finishedText name)], ?_, ?_, ?_, ?_⟩
    · rw [hfull]
      simp [exitStops, exitStateEvents]
    · simp [enterEventsDts, enterEventsNoDts, hEbegin]
    · simp [exitStops, exitStateEvents]
    · intro ev hev
      simp only [exitStops, exitStateEvents, List.cons_append, List.nil_append,
        List.mem_append, List.mem_cons, List.not_mem_nil, or_false] at hev
      rcases hev with h | h | h | h | h | h | h <;> subst h <;> rfl

theorem timeout_fires_once_reports_failed_no_late_ticks_witness :
    (∀ a ∈ [SchedAction.heartbeat], a = SchedAction.heartbeat) ∧
    ((timeoutScenario sampleName 60 3600 [SchedAction.heartbeat]
        [SchedAction.heartbeat, SchedAction.bodyComplete none]).exitExc =
      some (some PyExc.timeoutError) ∧
    (timeoutScenario sampleName 60 3600 [SchedAction.heartbeat]
        [SchedAction.heartbeat, SchedAction.bodyComplete none]).mtr.trace.count
      Event.timeoutFired = 1 ∧
    Event.dtsPatchState TransferState.FAILED ∈
      (timeoutScenario sampleName 60 3600 [SchedAction.heartbeat]
        [SchedAction.heartbeat, SchedAction.bodyComplete none]).mtr.trace ∧
    (∃ batch, Event.dtsLogMessages batch ∈
        (timeoutScenario sampleName 60 3600 [SchedAction.heartbeat]
          [SchedAction.heartbeat, SchedAction.bodyComplete none]).mtr.trace ∧
      ∃ mg, mg ∈ batch ∧ mg.severity = Severity.ERROR ∧
        mg.message_text = timeoutLogText 3600) ∧
    (∃ t1 t2, (timeoutScenario sampleName 60 3600 [SchedAction.heartbeat]
        [SchedAction.heartbeat, SchedAction.bodyComplete none]).mtr.trace =
          t1 ++ Event.exitBegin :: t2 ∧
      Event.exitBegin ∉ t1 ∧ Event.exitBegin ∉ t2 ∧ ∀ ev ∈ t2, ev.isTick = false)) :=
  ⟨by decide,
    timeout_fires_once_reports_failed_no_late_ticks sampleName 60 3600
      [SchedAction.heartbeat] [SchedAction.heartbeat, SchedAction.bodyComplete none]
      (by decide)⟩

lemma hfind_cons_eq (a : Nat) (o : PyObj) (cells : List (Nat × PyObj)) :
    hfind ((a, o) :: cells) a = some o := by
  simp [hfind]

lemma hfind_cons_ne {a b : Nat} (o : PyObj) (cells : List (Nat × PyObj)) (hne : a ≠ b) :
    hfind ((a, o) :: cells) b = hfind cells b := by
  simp [hfind, hne]

lemma hfind_mem {cells : List (Nat × PyObj)} {a : Nat} {o : PyObj}
    (h : hfind cells a = some o) : (a, o) ∈ cells := by
  induction cells with
  | nil => simp [hfind] at h
  | cons p rest ih =>
    obtain ⟨p1, p2⟩ := p
    by_cases hp : p1 = a
    · rw [hfind, if_pos hp] at h
      have ho : p2 = o := Option.some.inj h
      rw [← hp, ← ho]
      exact List.mem_cons_self _ _
    · rw [hfind, if_neg hp] at h
      exact List.mem_cons_of_mem _ (ih h)

lemma hfind_append_cases {A B : List (Nat × PyObj)} {a : Nat} {o : PyObj}
    (h : hfind (A ++ B) a = some o) :
    hfind A a = some o ∨ hfind B a = some o := by
  induction A with
  | nil => exact Or.inr h
  | cons p rest ih =>
    by_cases hp : p.1 = a
    · rw [List.cons_append, hfind, if_pos hp] at h
      left
      rw [hfind, if_pos hp]
      exact h
    · rw [List.cons_append, hfind, if_neg hp] at h
      rcases ih h with h2 | h2
      · left
        rw [hfind, if_neg hp]
        exact h2
      · exact Or.inr h2

lemma hfind_append_skip {A B : List (Nat × PyObj)} {a : Nat}
    (h : ∀ p ∈ A, p.1 ≠ a) : hfind (A ++ B) a = hfind B a := by
  induction A with
  | nil => rfl
  | cons p rest ih =>
    rw [List.cons_append, hfind, if_neg (h p (List.mem_cons_self p rest))]
    exact ih (fun q hq => h q (List.mem_cons_of_mem p hq))

lemma lookupKey_append (l1 l2 : List (String × Nat)) (k : String) :
    lookupKey (l1 ++ l2) k =
      (match lookupKey l1 k with
       | some v => some v
       | none => lookupKey l2 k) := by
  induction l1 with
  | nil => rfl
  | cons p rest ih =>
    by_cases hp : p.1 = k
    · rw [List.cons_append, lookupKey, if_pos hp, lookupKey, if_pos hp]
    · rw [List.cons_append, lookupKey, if_neg hp, lookupKey, if_neg hp]
      exact ih

lemma lookupKey_removeKey_self (es : List (String × Nat)) (k : String) :
    lookupKey (removeKey es k) k = none := by
  induction es with
  | nil => rfl
  | cons p rest ih =>
    obtain ⟨p1, p2⟩ := p
    simp only [removeKey, List.filter_cons] at ih ⊢
    simp only [decide_not] at ih
    by_cases hp : p1 = k
    · simp [hp]
      exact ih
    · simp [hp, lookupKey]
      exact ih

lemma lookupKey_removeKey_ne (es : List (String × Nat)) (k k2 : String) (h : k2 ≠ k) :
    lookupKey (removeKey es k) k2 = lookupKey es k2 := by
  have hk : ¬(k = k2) := fun hc => h hc.symm
  induction es with
  | nil => rfl
  | cons p rest ih =>
    obtain ⟨p1, p2⟩ := p
    simp only [removeKey, List.filter_cons] at ih ⊢
    simp only [decide_not] at ih
    by_cases hp : p1 = k
    · simp [hp, lookupKey, hk]
      exact ih
    · by_cases hp2 : p1 = k2
      · simp [hp, hp2, lookupKey, h]
      · simp [hp, hp2, lookupKey]
        exact ih

lemma lookupKey_map_set_self (es : List (String × Nat)) (k : String) (v : Nat)
    (hany : es.any (fun p => p.1 = k) = true) :
    lookupKey (es.map (fun p => if p.1 = k then (k, v) else p)) k = some v := by
  induction es with
  | nil => simp at hany
  | cons p rest ih =>
    obtain ⟨p1, p2⟩ := p
    by_cases hp : p1 = k
    · simp [hp, lookupKey]
    · rw [List.any_cons] at hany
      have hd : decide ((p1, p2).1 = k) = false := by simp [hp]
      rw [hd, Bool.false_or] at hany
      simp only [List.map_cons]
      rw [show (if (p1, p2).1 = k then (k, v) else (p1, p2)) = (p1, p2) from if_neg hp]
      rw [lookupKey, if_neg hp]
      exact ih hany

lemma lookupKey_map_set_ne (es : List (String × Nat)) (k k2 : String) (v : Nat)
    (h : k2 ≠ k) :
    lookupKey (es.map (fun p => if p.1 = k then (k, v) else p)) k2 = lookupKey es k2 := by
  have hk : ¬(k = k2) := fun hc => h hc.symm
  induction es with
  | nil => rfl
  | cons p rest ih =>
    obtain ⟨p1, p2⟩ := p
    by_cases hp : p1 = k
    · have hp2 : ¬(p1 = k2) := by rw [hp]; exact hk
      simp only [List.map_cons]
      rw [show (if (p1, p2).1 = k then (k, v) else (p1, p2)) = (k, v) from if_pos hp]
      rw [lookupKey, if_neg hk, lookupKey, if_neg hp2]
      exact ih
    · simp only [List.map_cons]
      rw [show (if (p1, p2).1 = k then (k, v) else (p1, p2)) = (p1, p2) from if_neg hp]
      by_cases hp2 : p1 = k2
      · rw [lookupKey, if_pos hp2, lookupKey, if_pos hp2]
      · rw [lookupKey, if_neg hp2, lookupKey, if_neg hp2]
        exact ih

lemma lookupKey_none_of_not_any (es : List (String × Nat)) (k : String)
    (h : es.any (fun p => p.1 = k) = false) : lookupKey es k = none := by
  induction es with
  | nil => rfl
  | cons p rest ih =>
    rw [List.any_cons, Bool.or_eq_false_iff] at h
    have hp : ¬(p.1 = k) := by
      have := h.1
      simpa using this
    rw [lookupKey, if_neg hp]
    exact ih h.2

lemma lookupKey_setKey_self (es : List (String × Nat)) (k : String) (v : Nat) :
    lookupKey (setKey es k v) k = some v := by
  unfold setKey
  by_cases hany : es.any (fun p => p.1 = k) = true
  · rw [if_pos hany]
    exact lookupKey_map_set_self es k v hany
  · have hany' : es.any (fun p => p.1 = k) = false := Bool.eq_false_iff.mpr hany
    rw [if_neg (by rw [hany']; exact Bool.false_ne_true)]
    rw [lookupKey_append, lookupKey_none_of_not_any es k hany']
    simp [lookupKey]

lemma lookupKey_setKey_ne (es : List (String × Nat)) (k k2 : String) (v : Nat)
    (h : k2 ≠ k) :
    lookupKey (setKey es k v) k2 = lookupKey es k2 := by
  unfold setKey
  by_cases hany : es.any (fun p => p.1 = k) = true
  · rw [if_pos hany]
    exact lookupKey_map_set_ne es k k2 v h
  · have hany' : es.any (fun p => p.1 = k) = false := Bool.eq_false_iff.mpr hany
    rw [if_neg (by rw [hany']; exact Bool.false_ne_true)]
    rw [lookupKey_append]
    cases hl : lookupKey es k2 with
    | some w => rfl
    | none =>
      rw [lookupKey, if_neg (fun hc => h (hc.symm))]
      rfl

lemma lookupKey_mem_values {es : List (String × Nat)} {k : String} {v : Nat}
    (h : lookupKey es k = some v) : v ∈ es.map Prod.snd := by
  induction es with
  | nil => simp [lookupKey] at h
  | cons p rest ih =>
    by_cases hp : p.1 = k
    · rw [lookupKey, if_pos hp] at h
      have hv : v = p.2 := (Option.some.inj h).symm
      rw [List.map_cons, hv]
      exact List.mem_cons_self _ _
    · rw [lookupKey, if_neg hp] at h
      rw [List.map_cons]
      exact List.mem_cons_of_mem _ (ih h)

lemma freshCells_mono_m {n m m2 : Nat} {newc : List (Nat × PyObj)}
    (hm : m ≤ m2) (h : freshCells n m newc) : freshCells n m2 newc := by
  intro p hp
  obtain ⟨h1, h2, h3⟩ := h p hp
  exact ⟨h1, lt_of_lt_of_le h2 hm, h3⟩

lemma freshCells_mono_n {n n2 m : Nat} {newc : List (Nat × PyObj)}
    (hn : n2 ≤ n) (h : freshCells n m newc) : freshCells n2 m newc := by
  intro p hp
  obtain ⟨h1, h2, h3⟩ := h p hp
  exact ⟨le_trans hn h1, h2, fun b hb => ⟨le_trans hn (h3 b hb).1, (h3 b hb).2⟩⟩

lemma freshCells_append {n m : Nat} {A B : List (Nat × PyObj)}
    (hA : freshCells n m A) (hB : freshCells n m B) : freshCells n m (A ++ B) := by
  intro p hp
  rcases List.mem_append.mp hp with h | h
  · exact hA p h
  · exact hB p h

lemma freshCells_nil (n m : Nat) : freshCells n m [] := by
  intro p hp
  simp at hp

/-- Specification of deepcopy: the copy root lies at or above the old
frontier, the heap only grows by cells in [old frontier, new frontier),
and every new cell points only at new cells strictly below itself. -/
theorem deepcopy_spec : ∀ fuel : Nat,
    (∀ (h : Heap) (a : Nat) (h1 : Heap) (c : Nat),
      deepcopy h fuel a = some (h1, c) →
      h.next ≤ c ∧ c < h1.next ∧ h.next ≤ h1.next ∧
      ∃ newc, h1.cells = newc ++ h.cells ∧ freshCells h.next h1.next newc) ∧
    (∀ (h : Heap) (as : List Nat) (h1 : Heap) (cs : List Nat),
      deepcopyL h fuel as = some (h1, cs) →
      h.next ≤ h1.next ∧
      (∃ newc, h1.cells = newc ++ h.cells ∧ freshCells h.next h1.next newc) ∧
      ∀ b ∈ cs, h.next ≤ b ∧ b < h1.next) ∧
    (∀ (h : Heap) (es : List (String × Nat)) (h1 : Heap) (ps : List (String × Nat)),
      deepcopyD h fuel es = some (h1, ps) →
      h.next ≤ h1.next ∧
      (∃ newc, h1.cells = newc ++ h.cells ∧ freshCells h.next h1.next newc) ∧
      ∀ p ∈ ps, h.next ≤ p.2 ∧ p.2 < h1.next) := by
  intro fuel
  induction fuel with
  | zero =>
    refine ⟨?_, ?_, ?_⟩
    · intro h a h1 c heq
      simp [deepcopy] at heq
    · intro h as h1 cs heq
      simp [deepcopyL] at heq
    · intro h es h1 ps heq
      simp [deepcopyD] at heq
  | succ f ih =>
    obtain ⟨ihC, ihL, ihD⟩ := ih
    have atomCase : ∀ (h : Heap) (o : PyObj),
        cellAddrs o = [] →
        h.next ≤ (halloc h o).2 ∧ (halloc h o).2 < (halloc h o).1.next ∧
        h.next ≤ (halloc h o).1.next ∧
        ∃ newc, (halloc h o).1.cells = newc ++ h.cells ∧
          freshCells h.next (halloc h o).1.next newc := by
      intro h o hca
      refine ⟨le_refl _, Nat.lt_succ_self _, Nat.le_succ _, [(h.next, o)], rfl, ?_⟩
      intro p hp
      rcases List.mem_singleton.mp hp with rfl
      exact ⟨le_refl _, Nat.lt_succ_self _, by simp [hca]⟩
    refine ⟨?_, ?_, ?_⟩
    · intro h a h1 c heq
      unfold deepcopy at heq
      cases hfd : hfind h.cells a with
      | none => rw [hfd] at heq; simp at heq
      | some o =>
        rw [hfd] at heq
        cases o with
        | ostr s =>
          dsimp only at heq
          obtain ⟨e1, e2⟩ := Prod.ext_iff.mp (Option.some.inj heq)
          subst e1
          subst e2
          exact atomCase h (PyObj.ostr s) rfl
        | oint n =>
          dsimp only at heq
          obtain ⟨e1, e2⟩ := Prod.ext_iff.mp (Option.some.inj heq)
          subst e1
          subst e2
          exact atomCase h (PyObj.oint n) rfl
        | onone =>
          dsimp only at heq
          obtain ⟨e1, e2⟩ := Prod.ext_iff.mp (Option.some.inj heq)
          subst e1
          subst e2
          exact atomCase h PyObj.onone rfl
        | olist items =>
          dsimp only at heq
          cases hdl : deepcopyL h f items with
          | none => rw [hdl] at heq; simp at heq
          | some pr =>
            obtain ⟨hL, cs⟩ := pr
            rw [hdl] at heq
            dsimp only at heq
            obtain ⟨hnn, ⟨newc, hcells, hfresh⟩, hcs⟩ := ihL h items hL cs hdl
            obtain ⟨e1, e2⟩ := Prod.ext_iff.mp (Option.some.inj heq)
            subst e1
            subst e2
            refine ⟨hnn, Nat.lt_succ_self _, le_trans hnn (Nat.le_succ _),
              (hL.next, PyObj.olist cs) :: newc, by simp [halloc, hcells], ?_⟩
            intro p hp
            rcases List.mem_cons.mp hp with rfl | hp2
            · exact ⟨hnn, Nat.lt_succ_self _, fun b hb => ⟨(hcs b hb).1, (hcs b hb).2⟩⟩
            · exact freshCells_mono_m (Nat.le_succ _) hfresh p hp2
        | odict es =>
          dsimp only at heq
          cases hdl : deepcopyD h f es with
          | none => rw [hdl] at heq; simp at heq
          | some pr =>
            obtain ⟨hD, ps⟩ := pr
            rw [hdl] at heq
            dsimp only at heq
            obtain ⟨hnn, ⟨newc, hcells, hfresh⟩, hps⟩ := ihD h es hD ps hdl
            obtain ⟨e1, e2⟩ := Prod.ext_iff.mp (Option.some.inj heq)
            subst e1
            subst e2
            refine ⟨hnn, Nat.lt_succ_self _, le_trans hnn (Nat.le_succ _),
              (hD.next, PyObj.odict ps) :: newc, by simp [halloc, hcells], ?_⟩
            intro p hp
            rcases List.mem_cons.mp hp with rfl | hp2
            · refine ⟨hnn, Nat.lt_succ_self _, ?_⟩
              intro b hb
              simp only [cellAddrs, List.mem_map] at hb
              obtain ⟨q, hq, hqb⟩ := hb
              exact hqb ▸ ⟨(hps q hq).1, (hps q hq).2⟩
            · exact freshCells_mono_m (Nat.le_succ _) hfresh p hp2
    · intro h as h1 cs heq
      unfold deepcopyL at heq
      cases as with
      | nil =>
        dsimp only at heq
        obtain ⟨e1, e2⟩ := Prod.ext_iff.mp (Option.some.inj heq)
        subst e1
        subst e2
        exact ⟨le_refl _, ⟨[], rfl, freshCells_nil _ _⟩, by simp⟩
      | cons a rest =>
        dsimp only at heq
        cases hda : deepcopy h f a with
        | none => rw [hda] at heq; simp at heq
        | some pr =>
          obtain ⟨hA, c⟩ := pr
          rw [hda] at heq
          dsimp only at heq
          cases hdr : deepcopyL hA f rest with
          | none => rw [hdr] at heq; simp at heq
          | some pr2 =>
            obtain ⟨h2, cs2⟩ := pr2
            rw [hdr] at heq
            dsimp only at heq
            obtain ⟨e1, e2⟩ := Prod.ext_iff.mp (Option.some.inj heq)
            subst e1
            subst e2
            obtain ⟨hc1, hc2, hc3, newcA, hcellsA, hfreshA⟩ := ihC h a hA c hda
            obtain ⟨hr1, ⟨newcR, hcellsR, hfreshR⟩, hr3⟩ := ihL hA rest h2 cs2 hdr
            refine ⟨le_trans hc3 hr1, ⟨newcR ++ newcA, by simp [hcellsR, hcellsA], ?_⟩, ?_⟩
            · exact freshCells_append (freshCells_mono_n hc3 hfreshR)
                (freshCells_mono_m hr1 hfreshA)
            · intro b hb
              rcases List.mem_cons.mp hb with rfl | hb2
              · exact ⟨hc1, lt_of_lt_of_le hc2 hr1⟩
              · exact ⟨le_trans hc3 (hr3 b hb2).1, (hr3 b hb2).2⟩
    · intro h es h1 ps heq
      unfold deepcopyD at heq
      cases es with
      | nil =>
        dsimp only at heq
        obtain ⟨e1, e2⟩ := Prod.ext_iff.mp (Option.some.inj heq)
        subst e1
        subst e2
        exact ⟨le_refl _, ⟨[], rfl, freshCells_nil _ _⟩, by simp⟩
      | cons q rest =>
        dsimp only at heq
        cases hda : deepcopy h f q.2 with
        | none => rw [hda] at heq; simp at heq
        | some pr =>
          obtain ⟨hA, c⟩ := pr
          rw [hda] at heq
          dsimp only at heq
          cases hdr : deepcopyD hA f rest with
          | none => rw [hdr] at heq; simp at heq
          | some pr2 =>
            obtain ⟨h2, ps2⟩ := pr2
            rw [hdr] at heq
            dsimp only at heq
            obtain ⟨e1, e2⟩ := Prod.ext_iff.mp (Option.some.inj heq)
            subst e1
            subst e2
            obtain ⟨hc1, hc2, hc3, newcA, hcellsA, hfreshA⟩ := ihC h q.2 hA c hda
            obtain ⟨hr1, ⟨newcR, hcellsR, hfreshR⟩, hr3⟩ := ihD hA rest h2 ps2 hdr
            refine ⟨le_trans hc3 hr1, ⟨newcR ++ newcA, by simp [hcellsR, hcellsA], ?_⟩, ?_⟩
            · exact freshCells_append (freshCells_mono_n hc3 hfreshR)
                (freshCells_mono_m hr1 hfreshA)
            · intro p hp
              rcases List.mem_cons.mp hp with rfl | hp2
              · exact ⟨hc1, lt_of_lt_of_le hc2 hr1⟩
              · exact ⟨le_trans hc3 (hr3 p hp2).1, (hr3 p hp2).2⟩

lemma getDict_some {h : Heap} {a : Nat} {es : List (String × Nat)}
    (hg : getDict h a = some es) : hfind h.cells a = some (PyObj.odict es) := by
  unfold getDict at hg
  cases hff : hfind h.cells a with
  | none => rw [hff] at hg; simp at hg
  | some o =>
    rw [hff] at hg
    cases o with
    | odict es2 =>
      dsimp only at hg
      rw [Option.some.inj hg]
    | ostr s => simp at hg
    | oint n => simp at hg
    | onone => simp at hg
    | olist items => simp at hg

lemma getList_some {h : Heap} {a : Nat} {items : List Nat}
    (hg : getList h a = some items) : hfind h.cells a = some (PyObj.olist items) := by
  unfold getList at hg
  cases hff : hfind h.cells a with
  | none => rw [hff] at hg; simp at hg
  | some o =>
    rw [hff] at hg
    cases o with
    | olist items2 =>
      dsimp only at hg
      rw [Option.some.inj hg]
    | ostr s => simp at hg
    | oint n => simp at hg
    | onone => simp at hg
    | odict es => simp at hg

/-- C9: TableContext.to_ImportedDataInfo leaves every cell reachable in the
original heap - in particular the whole imported_data_info object - exactly
as it was (the result is built on a deep copy), and the returned dict has
no destination_table_id_template key, maps destination_table_id to the
context's table_name reference, and maps source_uris of the first table
definition to the context's uris reference (the very same object, hence
value-equal to the context's uris). -/
theorem to_ImportedDataInfo_frame_and_result
    (h : Heap) (fuel : Nat) (ctx : TableContext) (h4 : Heap) (c : Nat)
    (hwb : h.wb) (heq : TableContext.to_ImportedDataInfo h fuel ctx = some (h4, c)) :
    (∀ b o, hfind h.cells b = some o → hfind h4.cells b = some o) ∧
    (∃ es, hfind h4.cells c = some (PyObj.odict es) ∧
      lookupKey es destTemplateKey = none ∧
      lookupKey es destIdKey = some ctx.table_name ∧
      ∃ tdAddr firstAddr restItems fes,
        lookupKey es tableDefsKey = some tdAddr ∧
        hfind h4.cells tdAddr = some (PyObj.olist (firstAddr :: restItems)) ∧
        hfind h4.cells firstAddr = some (PyObj.odict fes) ∧
        lookupKey fes sourceUrisKey = some ctx.uris) := by
  unfold TableContext.to_ImportedDataInfo at heq
  cases hdc : deepcopy h fuel ctx.imported_data_info with
  | none => rw [hdc] at heq; simp at heq
  | some pr =>
    obtain ⟨h1, c1⟩ := pr
    rw [hdc] at heq
    dsimp only at heq
    cases hg1 : getDict h1 c1 with
    | none => rw [hg1] at heq; simp at heq
    | some es0 =>
      rw [hg1] at heq
      dsimp only at heq
      set d1 : PyObj := PyObj.odict (removeKey es0 destTemplateKey) with hd1
      have hg2 : getDict (hset h1 c1 d1) c1 = some (removeKey es0 destTemplateKey) := by
        rw [hd1]; simp [getDict, hset, hfind]
      rw [hg2] at heq
      dsimp only at heq
      set es3 : List (String × Nat) :=
        setKey (removeKey es0 destTemplateKey) destIdKey ctx.table_name with hes3
      set d2 : PyObj := PyObj.odict es3 with hd2
      have hg3 : getDict (hset (hset h1 c1 d1) c1 d2) c1 = some es3 := by
        rw [hd2]; simp [getDict, hset, hfind]
      rw [hg3] at heq
      dsimp only at heq
      cases hlk : lookupKey es3 tableDefsKey with
      | none => rw [hlk] at heq; simp at heq
      | some tdAddr =>
        rw [hlk] at heq
        dsimp only at heq
        cases hgl : getList (hset (hset h1 c1 d1) c1 d2) tdAddr with
        | none => rw [hgl] at heq; simp at heq
        | some items =>
          rw [hgl] at heq
          dsimp only at heq
          cases items with
          | nil => simp at heq
          | cons firstAddr restItems =>
            dsimp only at heq
            cases hgf : getDict (hset (hset h1 c1 d1) c1 d2) firstAddr with
            | none => rw [hgf] at heq; simp at heq
            | some fes =>
              rw [hgf] at heq
              dsimp only at heq
              obtain ⟨e1, e2⟩ := Prod.ext_iff.mp (Option.some.inj heq)
              dsimp only at e1 e2
              subst e1
              subst e2
              -- facts from the deepcopy specification
              obtain ⟨hnc, hcn, hnn, newc, hcells, hfresh⟩ :=
                (deepcopy_spec fuel).1 h ctx.imported_data_info h1 c1 hdc
              -- the copy root cell lies in the fresh region
              have hf1 : hfind h1.cells c1 = some (PyObj.odict es0) := getDict_some hg1
              have hfnew : hfind newc c1 = some (PyObj.odict es0) := by
                rcases hfind_append_cases (hcells ▸ hf1) with hcase | hcase
                · exact hcase
                · have := hwb _ (hfind_mem hcase)
                  omega
              have hvals := (hfresh _ (hfind_mem hfnew)).2.2
              -- the table_defs cell also lies in the fresh region, below the root
              have hne1 : ¬(tableDefsKey = destIdKey) := by decide
              have hne2 : ¬(tableDefsKey = destTemplateKey) := by decide
              have hlk0 : lookupKey es0 tableDefsKey = some tdAddr := by
                rw [hes3, lookupKey_setKey_ne _ _ _ _ hne1,
                  lookupKey_removeKey_ne _ _ _ hne2] at hlk
                exact hlk
              have htdb : h.next ≤ tdAddr ∧ tdAddr < c1 := by
                refine hvals tdAddr ?_
                have := lookupKey_mem_values hlk0
                simpa [cellAddrs] using this
              have hnetd : c1 ≠ tdAddr := fun hc => by omega
              have hfl : hfind (hset (hset h1 c1 d1) c1 d2).cells tdAddr =
                  some (PyObj.olist (firstAddr :: restItems)) := getList_some hgl
              have hfl1 : hfind h1.cells tdAddr =
                  some (PyObj.olist (firstAddr :: restItems)) := by
                rw [hset, hset] at hfl
                rw [hfind_cons_ne _ _ hnetd, hfind_cons_ne _ _ hnetd] at hfl
                exact hfl
              have hflnew : hfind newc tdAddr =
                  some (PyObj.olist (firstAddr :: restItems)) := by
                rcases hfind_append_cases (hcells ▸ hfl1) with hcase | hcase
                · exact hcase
                · have := hwb _ (hfind_mem hcase)
                  omega
              have hitems := (hfresh _ (hfind_mem hflnew)).2.2
              have hfab : h.next ≤ firstAddr ∧ firstAddr < tdAddr := by
                refine hitems firstAddr ?_
                simp [cellAddrs]
              have hnefc : c1 ≠ firstAddr := fun hc => by omega
              have hnetf : tdAddr ≠ firstAddr := fun hc => by omega
              constructor
              · -- frame: the original cells are all untouched
                intro b o hb
                have hblt : b < h.next := hwb _ (hfind_mem hb)
                show hfind (hset (hset (hset h1 c1 d1) c1 d2) firstAddr
                    (PyObj.odict (setKey fes sourceUrisKey ctx.uris))).cells b = some o
                rw [hset, hset, hset]
                rw [hfind_cons_ne _ _ (by omega : firstAddr ≠ b)]
                rw [hfind_cons_ne _ _ (by omega : c1 ≠ b)]
                rw [hfind_cons_ne _ _ (by omega : c1 ≠ b)]
                rw [hcells]
                rw [hfind_append_skip (fun p hp => by
                  have := (hfresh p hp).1
                  omega)]
                exact hb
              · refine ⟨es3, ?_, ?_, ?_, tdAddr, firstAddr, restItems,
                  setKey fes sourceUrisKey ctx.uris, hlk, ?_, ?_,
                  lookupKey_setKey_self _ _ _⟩
                · show hfind (hset (hset (hset h1 c1 d1) c1 d2) firstAddr
                      (PyObj.odict (setKey fes sourceUrisKey ctx.uris))).cells c1 =
                    some (PyObj.odict es3)
                  rw [hset, hset, hset]
                  rw [hfind_cons_ne _ _ (by omega : firstAddr ≠ c1)]
                  rw [hd2]
                  exact hfind_cons_eq _ _ _
                · rw [hes3]
                  have hne3 : ¬(destTemplateKey = destIdKey) := by decide
                  rw [lookupKey_setKey_ne _ _ _ _ hne3]
                  exact lookupKey_removeKey_self _ _
                · rw [hes3]
                  exact lookupKey_setKey_self _ _ _
                · show hfind (hset (hset (hset h1 c1 d1) c1 d2) firstAddr
                      (PyObj.odict (setKey fes sourceUrisKey ctx.uris))).cells tdAddr =
                    some (PyObj.olist (firstAddr :: restItems))
                  rw [hset]
                  rw [hfind_cons_ne _ _ hnetf.symm]
                  exact hfl
                · show hfind (hset (hset (hset h1 c1 d1) c1 d2) firstAddr
                      (PyObj.odict (setKey fes sourceUrisKey ctx.uris))).cells firstAddr =
                    some (PyObj.odict (setKey fes sourceUrisKey ctx.uris))
                  rw [hset]
                  exact hfind_cons_eq _ _ _

theorem to_ImportedDataInfo_frame_and_result_witness :
    sampleHeap.wb ∧
    TableContext.to_ImportedDataInfo sampleHeap 20 sampleCtx = some (sampleHeapResult, 12) ∧
    hfind sampleHeapResult.cells 4 =
      some (PyObj.odict [(destTemplateKey, 0), (tableDefsKey, 3)]) ∧
    (∃ es, hfind sampleHeapResult.cells 12 = some (PyObj.odict es) ∧
      lookupKey es destTemplateKey = none ∧
      lookupKey es destIdKey = some sampleCtx.table_name ∧
      ∃ tdAddr firstAddr restItems fes,
        lookupKey es tableDefsKey = some tdAddr ∧
        hfind sampleHeapResult.cells tdAddr = some (PyObj.olist (firstAddr :: restItems)) ∧
        hfind sampleHeapResult.cells firstAddr = some (PyObj.odict fes) ∧
        lookupKey fes sourceUrisKey = some sampleCtx.uris) :=
  ⟨by decide, rfl,
    (to_ImportedDataInfo_frame_and_result sampleHeap 20 sampleCtx sampleHeapResult 12
        (by decide) rfl).1 4 _ rfl,
    (to_ImportedDataInfo_frame_and_result sampleHeap 20 sampleCtx sampleHeapResult 12
        (by decide) rfl).2⟩
